import Mathlib

/-!
# dpdk-tx-performance: a shallow embedding of `main.c`

The development follows `src/main.c`:

* `alloc_loop`, `tx_loop`, `send_pkts`  -- packet synthesis and the burst retry loop;
* `config_port`, `make_mempool`         -- port bring-up against a driver oracle;
* `main_startup`                        -- argument handling and the two `config_port` calls;
* `rate_monitor`, `main_iter`, `main_loop` -- one iteration of the transmit loop and runs of it.

Machine integers are natural numbers reduced modulo `2^16`, `2^32`, `2^64` at the
places where the C code stores into a `uint16_t`, `uint32_t`, `uint64_t`.
External collaborators (the NIC driver, the transmit queue, the buffer pool, the
cycle counter, the C library) are parameters of the definitions.
-/

namespace TxPerf

/-! ## Machine words and constants of `main.c` -/

/-- Number of values of a `uint16_t`. -/
def U16 : Nat := 2 ^ 16

/-- Number of values of a `uint32_t`. -/
def U32 : Nat := 2 ^ 32

/-- Number of values of a `uint64_t`. -/
def U64 : Nat := 2 ^ 64

/-- The macro `NB_MBUF`. -/
def NB_MBUF : Nat := 8192

/-- The macro `MEMPOOL_CACHE_SIZE`. -/
def MEMPOOL_CACHE_SIZE : Nat := 256

/-- The macro `RX_PTHRESH`. -/
def RX_PTHRESH : Nat := 8

/-- The macro `RX_HTHRESH`. -/
def RX_HTHRESH : Nat := 8

/-- The macro `RX_WTHRESH`. -/
def RX_WTHRESH : Nat := 4

/-- The macro `TX_PTHRESH`. -/
def TX_PTHRESH : Nat := 36

/-- The macro `TX_HTHRESH`. -/
def TX_HTHRESH : Nat := 0

/-- The macro `TX_WTHRESH`. -/
def TX_WTHRESH : Nat := 0

/-- The macro `TX_DESCS`. -/
def TX_DESCS : Nat := 512

/-- The macro `RX_DESCS`. -/
def RX_DESCS : Nat := 512

/-- The macro `BATCH_SIZE`. -/
def BATCH_SIZE : Nat := 64

/-! ## Packet synthesis and burst transmission (`send_pkts`) -/

/-- The fields of a `struct rte_mbuf` that `send_pkts` touches: the data length,
the total packet length, and the first eight payload bytes read as one
`uint64_t` in host byte order (`pkt[0]`). -/
structure Mbuf where
  data_len : Nat
  pkt_len : Nat
  word0 : Nat
  deriving DecidableEq, Repr

/-- The synthesis loop `for (i = 0; i < BATCH_SIZE; i++)` of `send_pkts`, with
`n` iterations left, loop index `i` and the static counter at `seq`.
`pool j` is the buffer that the `j`-th `rte_pktmbuf_alloc(pool)` of the call
returns (the source uses the result unchecked). The result is the part of
`bufs` filled from index `i` on, and the counter after the loop. -/
def alloc_loop (pool : Nat → Mbuf) : Nat → Nat → Nat → List Mbuf × Nat
  | 0, _, seq => ([], seq)
  | n + 1, i, seq =>
    let buf := pool i
    let buf := { buf with data_len := 60 }
    let buf := { buf with pkt_len := 60 }
    let buf := { buf with word0 := seq }
    let rest := alloc_loop pool n (i + 1) ((seq + 1) % U64)
    (buf :: rest.1, rest.2)

/-- One call `rte_eth_tx_burst(port, queue, pkts, nb_pkts)` together with the
count the transmit queue answered. -/
structure TxAttempt where
  port : Nat
  queue : Nat
  pkts : List Mbuf
  nb_pkts : Nat
  accepted : Nat
  deriving DecidableEq, Repr

/-- The `while (1)` retry loop of `send_pkts`. `resp k` is the answer of the
transmit queue to the `k`-th attempt of the call, `k` the index of the next
attempt, `sent` the local `uint32_t sent`. The fuel bounds the number of
attempts; the result is the attempts made and the returned value, `none` when
the fuel ran out before the loop returned. -/
def tx_loop (port : Nat) (resp : Nat → Nat) (bufs : List Mbuf) :
    Nat → Nat → Nat → List TxAttempt × Option Nat
  | 0, _, _ => ([], none)
  | fuel + 1, k, sent =>
    let nb_pkts := ((BATCH_SIZE + U32 - sent) % U32) % U16
    let accepted := resp k % U16
    let att : TxAttempt :=
      { port := port, queue := 0, pkts := (bufs.drop sent).take nb_pkts,
        nb_pkts := nb_pkts, accepted := accepted }
    let sent := (sent + accepted) % U32
    if sent ≥ BATCH_SIZE then ([att], some sent)
    else
      let rest := tx_loop port resp bufs fuel (k + 1) sent
      (att :: rest.1, rest.2)

/-- What one call of `send_pkts` did. -/
structure SendResult where
  bufs : List Mbuf
  attempts : List TxAttempt
  ret : Option Nat
  seq : Nat
  deriving DecidableEq, Repr

/-- The function `send_pkts(port, pool)`; `seq` is the value of its static
counter on entry. -/
def send_pkts (port : Nat) (pool : Nat → Mbuf) (resp : Nat → Nat) (fuel : Nat)
    (seq : Nat) : SendResult :=
  let filled := alloc_loop pool BATCH_SIZE 0 seq
  let bufs := filled.1
  let sent := 0
  let res := tx_loop port resp bufs fuel 0 sent
  { bufs := bufs, attempts := res.1, ret := res.2, seq := filled.2 }

/-- The surroundings of one `send_pkts` call: what the buffer pool and the
transmit queue do during it, and the bound on its attempts. -/
structure SendEnv where
  pool : Nat → Mbuf
  resp : Nat → Nat
  fuel : Nat

/-- A `send_pkts` call on a port. -/
structure Call where
  port : Nat
  tx : SendEnv

/-- Successive calls of `send_pkts`, the static counter being `seq` before the
first. A call that does not return (its retry loop ran out of fuel) is the last. -/
def send_calls : List Call → Nat → List SendResult
  | [], _ => []
  | c :: cs, seq =>
    let r := send_pkts c.port c.tx.pool c.tx.resp c.tx.fuel seq
    match r.ret with
    | none => [r]
    | some _ => r :: send_calls cs r.seq

/-- The buffers synthesized by successive calls, in synthesis order. -/
def packets : List SendResult → List Mbuf
  | [] => []
  | r :: rs => r.bufs ++ packets rs

/-- The cumulative accepted count after the first `k` answers of the queue. -/
def cum (resp : Nat → Nat) (k : Nat) : Nat :=
  ((List.range k).map resp).sum

/-! ## Port configuration (`config_port`, `make_mempool`) -/

/-- The threshold triple of `struct rte_eth_rxconf` set by `rx_conf`. -/
structure RxConf where
  pthresh : Nat
  hthresh : Nat
  wthresh : Nat
  deriving DecidableEq, Repr

/-- The fields of `struct rte_eth_txconf` set by `tx_conf`. -/
structure TxConf where
  pthresh : Nat
  hthresh : Nat
  wthresh : Nat
  tx_free_thresh : Nat
  tx_rs_thresh : Nat
  txq_flags : Nat
  deriving DecidableEq, Repr

/-- The constant `rx_conf`. -/
def rx_conf : RxConf :=
  { pthresh := RX_PTHRESH, hthresh := RX_HTHRESH, wthresh := RX_WTHRESH }

/-- The initial value of the global `tx_conf`. -/
def tx_conf : TxConf :=
  { pthresh := TX_PTHRESH, hthresh := TX_HTHRESH, wthresh := TX_WTHRESH,
    tx_free_thresh := 0, tx_rs_thresh := 0, txq_flags := 0 }

/-- The four driver calls of `config_port` with their arguments (the constant
`port_conf` and the socket id are left out). -/
inductive DriverCall
  | dev_configure (port nb_rx_q nb_tx_q : Nat)
  | tx_queue_setup (port queue nb_desc : Nat) (conf : TxConf)
  | rx_queue_setup (port queue nb_desc : Nat) (conf : RxConf) (pool : Int)
  | dev_start (port : Nat)
  deriving DecidableEq, Repr

/-- Position of a driver call in the order `config_port` issues them. -/
def DriverCall.stage : DriverCall → Nat
  | .dev_configure _ _ _ => 0
  | .tx_queue_setup _ _ _ _ => 1
  | .rx_queue_setup _ _ _ _ _ => 2
  | .dev_start _ => 3

/-- The port a driver call is for. -/
def DriverCall.port : DriverCall → Nat
  | .dev_configure p _ _ => p
  | .tx_queue_setup p _ _ _ => p
  | .rx_queue_setup p _ _ _ _ => p
  | .dev_start p => p

/-- The format strings of the `printf` calls of `config_port` and `main` before
the transmit loop. -/
inductive Fmt
  | configure_failed
  | queue_failed
  | start_failed
  | simple_path
  | full_path
  | usage
  | using_ports
  deriving DecidableEq, Repr

/-- The text of a format string. Both queue setups report with the same text. -/
def Fmt.text : Fmt → String
  | .configure_failed => "Configure %d failed: %d\n"
  | .queue_failed => "could not configure tx queue on port %d: %d\n"
  | .start_failed => "failed to start port %d: %d\n"
  | .simple_path => "Requesting simple tx path\n"
  | .full_path => "Requesting full-featured tx path\n"
  | .usage => "usage: [-s] port1 port2\n"
  | .using_ports => "Using ports %d and %d\n"

/-- What the program does that is visible outside, in order: a `printf` with
its arguments, a driver call with the code it reported, a pool creation
`rte_mempool_create("pool<id>", NB_MBUF, _, MEMPOOL_CACHE_SIZE, ...)`. -/
inductive Event
  | printf (fmt : Fmt) (args : List Int)
  | call (c : DriverCall) (rc : Int)
  | mempool_create (id : Int) (n cache_size : Nat)
  deriving DecidableEq, Repr

/-- The surroundings of the program: the two DPDK flag macros, the driver
(the code it reports for a call, given everything that happened before), the
call `getopt(argc, argv, "s")` of `main` (the value it returns and the vector
`argv` as it leaves it, since `getopt` may reorder the elements), `atoi`, and
`rte_get_tsc_hz()`. -/
structure Env where
  ETH_TXQ_FLAGS_NOMULTSEGS : Nat
  ETH_TXQ_FLAGS_NOOFFLOADS : Nat
  drv : List Event → DriverCall → Int
  getopt : List String → Int × List String
  atoi : String → Int
  hz : Nat

/-- The mutable globals of the startup code: `tx_conf`, the static `pool_id` of
`make_mempool`, and the events so far. -/
structure Global where
  tx_conf : TxConf
  pool_id : Int
  out : List Event
  deriving DecidableEq, Repr

/-- The globals at program start. -/
def Global.init : Global :=
  { tx_conf := TxPerf.tx_conf, pool_id := 0, out := [] }

/-- A `printf` of the program. -/
def emit (g : Global) (f : Fmt) (args : List Int) : Global :=
  { g with out := g.out ++ [Event.printf f args] }

/-- A driver call: the code reported, and the event recorded. -/
def driver_call (e : Env) (g : Global) (c : DriverCall) : Int × Global :=
  let rc := e.drv g.out c
  (rc, { g with out := g.out ++ [Event.call c rc] })

/-- The function `make_mempool()`: the pool is named after the old value of
`pool_id`, which is incremented; the handle is identified with that value. -/
def make_mempool (g : Global) : Int × Global :=
  let id := g.pool_id
  (id, { g with pool_id := id + 1,
                out := g.out ++ [Event.mempool_create id NB_MBUF MEMPOOL_CACHE_SIZE] })

/-- The function `config_port(port, simple_tx)`. -/
def config_port (e : Env) (g : Global) (port : Nat) (simple_tx : Bool) : Bool × Global :=
  let r := driver_call e g (.dev_configure port 1 1)
  let rc := r.1
  let g := r.2
  if rc ≠ 0 then (false, emit g .configure_failed [port, rc])
  else
    let g := { g with tx_conf := { g.tx_conf with
      txq_flags := if simple_tx
        then e.ETH_TXQ_FLAGS_NOMULTSEGS ||| e.ETH_TXQ_FLAGS_NOOFFLOADS
        else e.ETH_TXQ_FLAGS_NOMULTSEGS } }
    let r := driver_call e g (.tx_queue_setup port 0 TX_DESCS g.tx_conf)
    let rc := r.1
    let g := r.2
    if rc ≠ 0 then (false, emit g .queue_failed [port, rc])
    else
      let p := make_mempool g
      let r := driver_call e p.2 (.rx_queue_setup port 0 RX_DESCS rx_conf p.1)
      let rc := r.1
      let g := r.2
      if rc ≠ 0 then (false, emit g .queue_failed [port, rc])
      else
        let r := driver_call e g (.dev_start port)
        let rc := r.1
        let g := r.2
        if rc ≠ 0 then (false, emit g .start_failed [port, rc])
        else (true, g)

/-! ## Startup (`main` up to the transmit loop) -/

/-- Lines 144-161 of `main`, on the argument vector left by `rte_eal_init`:
`none` on the usage error, otherwise `simple_tx`, `port1` and `port2`. The
ports are read from the vector as `getopt` left it. -/
def parse_args (e : Env) (argv : List String) : Option (Bool × Nat × Nat) × Global :=
  let g := Global.init
  let argc : Int := argv.length
  let r := e.getopt argv
  let opt := r.1 % 256
  let argv := r.2
  let simple_tx : Bool := decide (opt = 115)
  let g := if simple_tx then emit g .simple_path [] else emit g .full_path []
  let argc := if simple_tx then argc - 1 else argc
  let argv := if simple_tx then argv.drop 1 else argv
  if argc ≠ 3 then (none, emit g .usage [])
  else
    let port1 := (e.atoi (argv.getD 1 "") % 256).toNat
    let port2 := (e.atoi (argv.getD 2 "") % 256).toNat
    (some (simple_tx, port1, port2), emit g .using_ports [port1, port2])

/-- How the startup ends: `main` returns a status, or the transmit loop is
entered for the two ports. -/
inductive Startup
  | exit (status : Int)
  | running (port1 port2 : Nat)
  deriving DecidableEq, Repr

/-- Lines 144-166 of `main`. -/
def main_startup (e : Env) (argv : List String) : Startup × Global :=
  match parse_args e argv with
  | (none, g) => (.exit (-1), g)
  | (some (simple_tx, port1, port2), g) =>
    let r1 := config_port e g port1 simple_tx
    if !r1.1 then (.exit (-1), r1.2)
    else
      let r2 := config_port e r1.2 port2 simple_tx
      if !r2.1 then (.exit (-1), r2.2)
      else (.running port1 port2, (make_mempool r2.2).2)

/-- The driver calls among some events, with the codes reported. -/
def calls_of (evs : List Event) : List (DriverCall × Int) :=
  evs.filterMap fun ev =>
    match ev with
    | .call c rc => some (c, rc)
    | _ => none

/-- The `printf` events among some events. -/
def prints_of (evs : List Event) : List (Fmt × List Int) :=
  evs.filterMap fun ev =>
    match ev with
    | .printf f args => some (f, args)
    | _ => none

/-- Number of `rte_eth_dev_configure` calls among some events: `config_port`
starts with one, so this counts the `config_port` calls. -/
def count_configure (evs : List Event) : Nat :=
  ((calls_of evs).filter fun c => c.1.stage = 0).length

/-- The transmit-queue configuration of a mode, in the words of the
specification: thresholds 36/0/0, and the flags `NOMULTSEGS | NOOFFLOADS` in
simple mode, `NOMULTSEGS` alone otherwise. -/
def mode_tx_conf (e : Env) (simple_tx : Bool) : TxConf :=
  { pthresh := 36, hthresh := 0, wthresh := 0, tx_free_thresh := 0, tx_rs_thresh := 0,
    txq_flags := if simple_tx
      then e.ETH_TXQ_FLAGS_NOMULTSEGS ||| e.ETH_TXQ_FLAGS_NOOFFLOADS
      else e.ETH_TXQ_FLAGS_NOMULTSEGS }

/-- The configuration values a driver call carries in a mode, in the words of
the specification: one rx and one tx queue; tx queue 0 with 512 descriptors and
the mode's transmit configuration; rx queue 0 with 512 descriptors and
thresholds 8/8/4. -/
def call_conforms (e : Env) (simple_tx : Bool) : DriverCall → Prop
  | .dev_configure _ nb_rx_q nb_tx_q => nb_rx_q = 1 ∧ nb_tx_q = 1
  | .tx_queue_setup _ queue nb_desc conf =>
    queue = 0 ∧ nb_desc = 512 ∧ conf = mode_tx_conf e simple_tx
  | .rx_queue_setup _ queue nb_desc conf _ =>
    queue = 0 ∧ nb_desc = 512 ∧ conf = { pthresh := 8, hthresh := 8, wthresh := 4 }
  | .dev_start _ => True

/-! ## The transmit loop (`main`, lines 168-182) -/

/-- Addition of two `uint64_t`. -/
def add64 (a b : Nat) : Nat := (a + b) % U64

/-- Subtraction of two `uint64_t`. -/
def sub64 (a b : Nat) : Nat := (a % U64 + U64 - b % U64) % U64

/-- The locals of `main` that live across iterations, and the static `seq`. -/
structure LoopState where
  seq : Nat
  sent : Nat
  next_print : Nat
  last_sent : Nat
  deriving DecidableEq, Repr

/-- One rate report: the reading `time` at which it is made, the cycle count
`time - next_print + hz`, its `uint64_t` quotient by `hz` (the value converted to
the `double elapsed`), the packet delta `pkts`, and the running total `sent`
that becomes the baseline. -/
structure Report where
  time : Nat
  cycles : Nat
  elapsed : Nat
  pkts : Nat
  total : Nat
  deriving DecidableEq, Repr

/-- Lines 174-181: the rate monitor, on the reading `time`. `none` is the
integer division by a zero frequency. -/
def rate_monitor (hz : Nat) (st : LoopState) (time : Nat) :
    Option (LoopState × Option Report) :=
  if time ≥ st.next_print then
    if hz = 0 then none
    else
      let cycles := add64 (sub64 time st.next_print) hz
      let elapsed := cycles / hz
      let pkts := sub64 st.sent st.last_sent
      some ({ st with next_print := add64 time hz, last_sent := st.sent },
            some { time := time, cycles := cycles, elapsed := elapsed, pkts := pkts,
                   total := st.sent })
  else some (st, none)

/-- The value `(double) pkts / elapsed / 1000000` of a report as an exact
fraction (before rounding to a `double`; it has a meaning when `elapsed` is not
0, where the C expression is a finite number). -/
def Report.mpps (r : Report) : ℚ :=
  (r.pkts : ℚ) / (r.elapsed : ℚ) / 1000000

/-- The surroundings of one loop iteration: the two `send_pkts` calls and the
reading of `rte_rdtsc()`. -/
structure Iter where
  tx1 : SendEnv
  tx2 : SendEnv
  time : Nat

/-- What one iteration did. -/
structure IterOut where
  send1 : SendResult
  send2 : SendResult
  report : Option Report

/-- The body of `while (true)` in `main`; `none` when a `send_pkts` call does
not return or the rate monitor divides by zero. -/
def main_iter (hz port1 port2 : Nat) (st : LoopState) (it : Iter) :
    Option (LoopState × IterOut) :=
  let s1 := send_pkts port1 it.tx1.pool it.tx1.resp it.tx1.fuel st.seq
  match s1.ret with
  | none => none
  | some n1 =>
    let sent := add64 st.sent n1
    let s2 := send_pkts port2 it.tx2.pool it.tx2.resp it.tx2.fuel s1.seq
    match s2.ret with
    | none => none
    | some n2 =>
      let sent := add64 sent n2
      let st1 : LoopState :=
        { seq := s2.seq, sent := sent, next_print := st.next_print,
          last_sent := st.last_sent }
      match rate_monitor hz st1 it.time with
      | none => none
      | some r => some (r.1, { send1 := s1, send2 := s2, report := r.2 })

/-- The loop state on entry: `seq = 0`, `sent = 0`, `next_print = rte_get_tsc_hz()`,
`last_sent = 0`. -/
def loop_init (hz : Nat) : LoopState :=
  { seq := 0, sent := 0, next_print := hz, last_sent := 0 }

/-- The first iterations of the transmit loop, up to one that does not finish. -/
def main_loop (hz port1 port2 : Nat) : LoopState → List Iter → List IterOut
  | _, [] => []
  | st, it :: its =>
    match main_iter hz port1 port2 st it with
    | none => []
    | some r => r.2 :: main_loop hz port1 port2 r.1 its

/-- The buffers synthesized by the iterations of a run, in synthesis order. -/
def loop_packets : List IterOut → List Mbuf
  | [] => []
  | o :: os => o.send1.bufs ++ (o.send2.bufs ++ loop_packets os)

/-- The rate reports of a run of the loop, in order. -/
def reports (hz port1 port2 : Nat) (st : LoopState) (its : List Iter) : List Report :=
  (main_loop hz port1 port2 st its).filterMap fun o => o.report

/-- A run of `main`: the status returned (`none` once the transmit loop is
entered, which has no exit), the startup events, and the loop iterations. -/
structure MainRun where
  status : Option Int
  out : List Event
  iters : List IterOut

/-- The function `main`, from after `rte_eal_init`. -/
def main (e : Env) (argv : List String) (its : List Iter) : MainRun :=
  match main_startup e argv with
  | (.exit s, g) => { status := some s, out := g.out, iters := [] }
  | (.running port1 port2, g) =>
    { status := none, out := g.out,
      iters := main_loop e.hz port1 port2 (loop_init e.hz) its }

/-- A report made while the threshold was `np` and the baseline `ls`: the
reading has reached the threshold, the frequency is not zero, and the report's
fields are computed from `np` and `ls` as in lines 176-177. -/
def report_from (hz np ls : Nat) (r : Report) : Prop :=
  np ≤ r.time ∧ hz ≠ 0 ∧ r.cycles = add64 (sub64 r.time np) hz ∧
    r.elapsed = r.cycles / hz ∧ r.pkts = sub64 r.total ls

/-- A pool and a transmit queue with which one `send_pkts` call finishes within
its bound on attempts: every answer is at most the number of buffers offered,
and the cumulative accepted count reaches `BATCH_SIZE` within `fuel` attempts. -/
def SendEnv.completes (tx : SendEnv) : Prop :=
  (∀ k, cum tx.resp k < BATCH_SIZE → tx.resp k ≤ BATCH_SIZE - cum tx.resp k) ∧
  ∃ n, n ≤ tx.fuel ∧ BATCH_SIZE ≤ cum tx.resp n

/-- In the words of the specification: among the successive readings of the
loop, those at which a report is due, the threshold being `np` before the
first: a reading that has reached the threshold, after which the threshold is
that reading plus `hz`. -/
def report_times (hz : Nat) : Nat → List Nat → List Nat
  | _, [] => []
  | np, t :: ts =>
    if np ≤ t then t :: report_times hz (add64 t hz) ts else report_times hz np ts

/-- In the words of the specification: the number of cycles from each reading
to the next, in `uint64_t` arithmetic, `prev` being the reading before the
first. -/
def elapsed_cycles : Nat → List Nat → List Nat
  | _, [] => []
  | prev, t :: ts => sub64 t prev :: elapsed_cycles t ts

/-! ## A concrete environment -/

/-- Modelled from the C library manual (glibc, 64-bit `long`, 32-bit `int`):
`atoi(s)` is `(int) strtol(s, NULL, 10)`. It skips white space, reads an
optional sign and the longest run of decimal digits, and ignores the rest; the
value saturates at the bounds of `long` and is then cut to an `int`. -/
def libc_atoi (s : String) : Int :=
  let cs := s.toList.dropWhile fun c => c = ' ' ∨ (9 ≤ c.toNat ∧ c.toNat ≤ 13)
  let neg := cs.head? = some '-'
  let cs := if cs.head? = some '-' ∨ cs.head? = some '+' then cs.drop 1 else cs
  let v : Nat := (cs.takeWhile Char.isDigit).foldl (fun a c => 10 * a + (c.toNat - 48)) 0
  let l : Int := if neg then -(v : Int) else (v : Int)
  let l : Int := if l < -(2 ^ 63) then -(2 ^ 63) else if 2 ^ 63 - 1 < l then 2 ^ 63 - 1 else l
  (l + 2 ^ 31) % 2 ^ 32 - 2 ^ 31

/-- An element of `argv` that `getopt` takes for an option element: it starts
with `-` and is longer than that. -/
def is_option_elem (a : String) : Bool :=
  decide (a.toList.head? = some '-' ∧ 2 ≤ a.length)

/-- Modelled from the C library manual: a call `getopt(argc, argv, "s")` that
starts scanning at `argv[1]` (GNU argument permutation). The non-options in
front are skipped and the first option element decides: `-s...` gives `'s'`,
another option character gives `'?'`, and `--` ends the options, gives -1 and
is moved in front of the non-options that were skipped. Without an option
element the result is -1. In the other cases the vector is left as it was. -/
def libc_getopt (argv : List String) : Int × List String :=
  let skipped := (argv.drop 1).takeWhile fun a => !is_option_elem a
  match (argv.drop 1).dropWhile fun a => !is_option_elem a with
  | [] => (-1, argv)
  | a :: after =>
    if a = "--" then (-1, argv.take 1 ++ (a :: (skipped ++ after)))
    else if (a.toList.drop 1).head? = some 's' then (115, argv)
    else (63, argv)

/-- An environment in which every driver call succeeds, with the flag values of
`rte_ethdev.h` and a counter frequency of 10 cycles per second. -/
def good_env : Env :=
  { ETH_TXQ_FLAGS_NOMULTSEGS := 0x0001
    ETH_TXQ_FLAGS_NOOFFLOADS := 0x0F00
    drv := fun _ _ => 0
    getopt := libc_getopt
    atoi := libc_atoi
    hz := 10 }

/-- An environment like `good_env` whose driver refuses to start port 1 with
code `-5`. -/
def bad_env : Env :=
  { good_env with drv := fun _ c => if c = DriverCall.dev_start 1 then -5 else 0 }

/-- A transmit queue that accepts the whole batch at once, on a pool of blank
buffers. -/
def good_tx : SendEnv :=
  { pool := fun _ => { data_len := 0, pkt_len := 0, word0 := 0 }
    resp := fun _ => 64
    fuel := 1 }

/-- Three loop iterations whose cycle-counter readings are 10, 12 and 25. -/
def three_iters : List Iter :=
  [{ tx1 := good_tx, tx2 := good_tx, time := 10 },
   { tx1 := good_tx, tx2 := good_tx, time := 12 },
   { tx1 := good_tx, tx2 := good_tx, time := 25 }]

/-! ## Packet synthesis: lemmas -/

theorem alloc_loop_length (pool : Nat → Mbuf) (n i seq : Nat) :
    (alloc_loop pool n i seq).1.length = n := by
  induction n generalizing i seq with
  | zero => simp [alloc_loop]
  | succ n ih => simp [alloc_loop, ih]

theorem alloc_loop_seq (pool : Nat → Mbuf) (n i seq : Nat) (hseq : seq < U64) :
    (alloc_loop pool n i seq).2 = (seq + n) % U64 := by
  induction n generalizing i seq with
  | zero => simp [alloc_loop, Nat.mod_eq_of_lt hseq]
  | succ n ih =>
    simp only [alloc_loop]
    rw [ih (i + 1) ((seq + 1) % U64) (Nat.mod_lt _ (by decide))]
    rw [Nat.add_mod, Nat.mod_mod, ← Nat.add_mod]
    congr 1
    omega

theorem alloc_loop_get (pool : Nat → Mbuf) (n i seq j : Nat) (hseq : seq < U64)
    (hj : j < n) :
    (alloc_loop pool n i seq).1[j]? =
      some { data_len := 60, pkt_len := 60, word0 := (seq + j) % U64 } := by
  induction n generalizing i seq j with
  | zero => omega
  | succ n ih =>
    cases j with
    | zero => simp [alloc_loop, Nat.mod_eq_of_lt hseq]
    | succ j =>
      simp only [alloc_loop, List.getElem?_cons_succ]
      rw [ih (i + 1) ((seq + 1) % U64) j (Nat.mod_lt _ (by decide)) (by omega)]
      have h : ((seq + 1) % U64 + j) % U64 = (seq + (j + 1)) % U64 := by
        rw [Nat.add_mod, Nat.mod_mod, ← Nat.add_mod]
        congr 1
        omega
      rw [h]

theorem alloc_loop_shape (pool : Nat → Mbuf) (n i seq : Nat) :
    ∀ b ∈ (alloc_loop pool n i seq).1, b.data_len = 60 ∧ b.pkt_len = 60 := by
  induction n generalizing i seq with
  | zero => simp [alloc_loop]
  | succ n ih =>
    intro b hb
    simp only [alloc_loop, List.mem_cons] at hb
    rcases hb with rfl | hb
    · exact ⟨rfl, rfl⟩
    · exact ih _ _ b hb

theorem nb_pkts_eq (sent : Nat) (h : sent < BATCH_SIZE) :
    ((BATCH_SIZE + U32 - sent) % U32) % U16 = BATCH_SIZE - sent := by
  simp only [BATCH_SIZE, U32, U16] at *
  omega

theorem take_drop_all (bufs : List Mbuf) (hlen : bufs.length = BATCH_SIZE) (sent : Nat) :
    (bufs.drop sent).take (BATCH_SIZE - sent) = bufs.drop sent :=
  List.take_of_length_le (by simp [hlen])

theorem tx_loop_attempts (port : Nat) (resp : Nat → Nat) (bufs : List Mbuf)
    (hlen : bufs.length = BATCH_SIZE) (fuel k sent : Nat) (hs : sent < BATCH_SIZE) :
    ∀ att ∈ (tx_loop port resp bufs fuel k sent).1,
      att.port = port ∧ att.queue = 0 ∧ att.pkts.length = att.nb_pkts ∧
        ∃ s, s < BATCH_SIZE ∧ att.pkts = bufs.drop s := by
  induction fuel generalizing k sent with
  | zero => simp [tx_loop]
  | succ fuel ih =>
    have hnb := nb_pkts_eq sent hs
    have hatt := take_drop_all bufs hlen sent
    intro att h
    simp only [tx_loop, hnb, hatt] at h
    split_ifs at h with hge
    · simp only [List.mem_singleton] at h
      subst h
      exact ⟨rfl, rfl, by simp [hlen], sent, hs, rfl⟩
    · simp only [List.mem_cons] at h
      rcases h with rfl | h
      · exact ⟨rfl, rfl, by simp [hlen], sent, hs, rfl⟩
      · exact ih (k + 1) _ (by omega) att h

theorem tx_loop_first (port : Nat) (resp : Nat → Nat) (bufs : List Mbuf)
    (hlen : bufs.length = BATCH_SIZE) (fuel : Nat) :
    (tx_loop port resp bufs (fuel + 1) 0 0).1.head? =
      some { port := port, queue := 0, pkts := bufs, nb_pkts := BATCH_SIZE,
             accepted := resp 0 % U16 } := by
  have hnb := nb_pkts_eq 0 (by decide)
  have hatt := take_drop_all bufs hlen 0
  simp only [Nat.sub_zero, List.drop_zero] at hnb hatt
  simp only [tx_loop, hnb, hatt, List.drop_zero]
  split_ifs <;> simp [hlen, BATCH_SIZE, U32, U16]

/-- Claim C3 (frame shape). Every call of `send_pkts` fills an array of 64
buffers whose data length and packet length are 60; every transmit attempt of the
call, the first and each retry, is on the call's port and queue 0 and hands over a
tail `bufs + sent` of that same array with `nb_pkts` equal to its length, so every
buffer handed over has both lengths equal to 60; the first attempt hands over all
64 buffers. -/
theorem send_pkts_frame_shape (port : Nat) (pool : Nat → Mbuf) (resp : Nat → Nat)
    (fuel seq : Nat) :
    (send_pkts port pool resp fuel seq).bufs.length = 64 ∧
    (∀ b ∈ (send_pkts port pool resp fuel seq).bufs, b.data_len = 60 ∧ b.pkt_len = 60) ∧
    (∀ att ∈ (send_pkts port pool resp fuel seq).attempts,
      att.port = port ∧ att.queue = 0 ∧ att.pkts.length = att.nb_pkts ∧
      (∃ s, s < 64 ∧ att.pkts = (send_pkts port pool resp fuel seq).bufs.drop s) ∧
      ∀ b ∈ att.pkts, b.data_len = 60 ∧ b.pkt_len = 60) ∧
    (0 < fuel →
      ((send_pkts port pool resp fuel seq).attempts.head?).map (fun a => (a.pkts, a.nb_pkts)) =
        some ((send_pkts port pool resp fuel seq).bufs, 64)) := by
  have hlen : (alloc_loop pool BATCH_SIZE 0 seq).1.length = BATCH_SIZE :=
    alloc_loop_length pool BATCH_SIZE 0 seq
  have hshape := alloc_loop_shape pool BATCH_SIZE 0 seq
  refine ⟨hlen, hshape, ?_, ?_⟩
  · intro att hatt
    obtain ⟨h1, h2, h3, s, hs, h4⟩ :=
      tx_loop_attempts port resp _ hlen fuel 0 0 (by decide) att hatt
    refine ⟨h1, h2, h3, ⟨s, hs, h4⟩, ?_⟩
    intro b hb
    rw [h4] at hb
    exact hshape b (List.mem_of_mem_drop hb)
  · intro hf
    obtain ⟨f, rfl⟩ : ∃ f, fuel = f + 1 := ⟨fuel - 1, by omega⟩
    simp only [send_pkts]
    rw [tx_loop_first port resp _ hlen f]
    rfl

/-- With a queue that takes 32 buffers per attempt, `send_pkts` makes two
attempts, offering 64 and then 32 buffers, all of data and packet length 60. -/
theorem send_pkts_frame_shape_witness :
    (send_pkts 3 good_tx.pool (fun _ => 32) 2 0).attempts.map (fun a => a.nb_pkts) = [64, 32] ∧
    (∀ att ∈ (send_pkts 3 good_tx.pool (fun _ => 32) 2 0).attempts,
      ∀ b ∈ att.pkts, b.data_len = 60 ∧ b.pkt_len = 60) :=
  ⟨by decide, fun att h =>
    ((send_pkts_frame_shape 3 good_tx.pool (fun _ => 32) 2 0).2.2.1 att h).2.2.2.2⟩

theorem cum_succ (resp : Nat → Nat) (k : Nat) : cum resp (k + 1) = cum resp k + resp k := by
  simp [cum, List.range_succ]

theorem tx_step_sent (resp : Nat → Nat) (k : Nat) (hk : cum resp k < BATCH_SIZE)
    (hle : resp k ≤ BATCH_SIZE - cum resp k) :
    (cum resp k + resp k % U16) % U32 = cum resp (k + 1) := by
  rw [cum_succ]
  simp only [BATCH_SIZE, U32, U16] at *
  omega

theorem tx_loop_complete (port : Nat) (resp : Nat → Nat) (bufs : List Mbuf) (n0 : Nat)
    (hle : ∀ k, cum resp k < BATCH_SIZE → resp k ≤ BATCH_SIZE - cum resp k)
    (hn0 : BATCH_SIZE ≤ cum resp n0) (hmin : ∀ m, m < n0 → cum resp m < BATCH_SIZE)
    (d k : Nat) (hd : k + d + 1 = n0) (fuel : Nat) (hf : d + 1 ≤ fuel) :
    (tx_loop port resp bufs fuel k (cum resp k)).2 = some BATCH_SIZE ∧
    (tx_loop port resp bufs fuel k (cum resp k)).1.map (fun a => a.accepted) =
      (List.range' k (d + 1)).map resp := by
  induction d generalizing k fuel with
  | zero =>
    obtain ⟨f, rfl⟩ : ∃ f, fuel = f + 1 := ⟨fuel - 1, by omega⟩
    have hk := hmin k (by omega)
    have hr := hle k hk
    have hs := tx_step_sent resp k hk hr
    have h64 : cum resp (k + 1) = BATCH_SIZE := by
      have : BATCH_SIZE ≤ cum resp (k + 1) := by
        have : k + 1 = n0 := by omega
        rw [this]; exact hn0
      rw [cum_succ] at this ⊢
      omega
    have hmod : resp k % U16 = resp k := by
      simp only [BATCH_SIZE, U16] at *
      omega
    rw [hmod] at hs
    simp [tx_loop, hs, h64, hmod]
  | succ d ih =>
    obtain ⟨f, rfl⟩ : ∃ f, fuel = f + 1 := ⟨fuel - 1, by omega⟩
    have hk := hmin k (by omega)
    have hr := hle k hk
    have hs := tx_step_sent resp k hk hr
    have hk1 := hmin (k + 1) (by omega)
    have hmod : resp k % U16 = resp k := by
      simp only [BATCH_SIZE, U16] at *
      omega
    have hnot : ¬ (cum resp (k + 1) ≥ BATCH_SIZE) := by omega
    obtain ⟨ih1, ih2⟩ := ih (k + 1) (by omega) f (by omega)
    rw [hmod] at hs
    have hnot2 : ¬ (BATCH_SIZE ≤ cum resp (k + 1)) := hnot
    rw [List.range'_succ k (d + 1)]
    simp [tx_loop, hs, hnot2, hmod, ih1, ih2]

theorem tx_loop_stall (port : Nat) (resp : Nat → Nat) (bufs : List Mbuf) (n0 : Nat)
    (hle : ∀ k, cum resp k < BATCH_SIZE → resp k ≤ BATCH_SIZE - cum resp k)
    (hmin : ∀ m, m < n0 → cum resp m < BATCH_SIZE)
    (fuel k : Nat) (hf : k + fuel < n0) :
    (tx_loop port resp bufs fuel k (cum resp k)).2 = none := by
  induction fuel generalizing k with
  | zero => simp [tx_loop]
  | succ f ih =>
    have hk := hmin k (by omega)
    have hs := tx_step_sent resp k hk (hle k hk)
    have hnot : ¬ (cum resp (k + 1) ≥ BATCH_SIZE) := by
      have := hmin (k + 1) (by omega)
      omega
    simp only [tx_loop, hs, hnot, if_false]
    exact ih (k + 1) (by omega)

theorem cum_zero (resp : Nat → Nat) : cum resp 0 = 0 := by
  simp [cum]

/-- Claim C1 (batch completeness). If every answer of the transmit queue is at
most the number of buffers offered (64 minus what was accepted so far) and the
cumulative accepted count reaches 64 at some point, then there is a number `n`
of attempts, the first at which the cumulative count is 64, such that
`send_pkts` on any port, given room for at least `n` attempts, returns exactly
`BATCH_SIZE` after exactly `n` attempts whose accepted counts are the queue's
first `n` answers and sum to `BATCH_SIZE`, while it has not returned after fewer
than `n` attempts. -/
theorem send_pkts_batch_complete (port : Nat) (pool : Nat → Mbuf) (resp : Nat → Nat)
    (seq : Nat)
    (hle : ∀ k, cum resp k < BATCH_SIZE → resp k ≤ BATCH_SIZE - cum resp k)
    (hev : ∃ n, BATCH_SIZE ≤ cum resp n) :
    ∃ n, 0 < n ∧ cum resp n = BATCH_SIZE ∧ (∀ m, m < n → cum resp m < BATCH_SIZE) ∧
      (∀ fuel, n ≤ fuel →
        (send_pkts port pool resp fuel seq).ret = some BATCH_SIZE ∧
        (send_pkts port pool resp fuel seq).attempts.length = n ∧
        (send_pkts port pool resp fuel seq).attempts.map (fun a => a.accepted) =
          (List.range n).map resp ∧
        ((send_pkts port pool resp fuel seq).attempts.map (fun a => a.accepted)).sum =
          BATCH_SIZE) ∧
      (∀ fuel, fuel < n → (send_pkts port pool resp fuel seq).ret = none) := by
  classical
  let n0 := Nat.find hev
  have hn0 : BATCH_SIZE ≤ cum resp n0 := Nat.find_spec hev
  have hmin : ∀ m, m < n0 → cum resp m < BATCH_SIZE := fun m hm =>
    Nat.lt_of_not_le (Nat.find_min hev hm)
  have hpos : 0 < n0 := by
    rcases Nat.eq_zero_or_pos n0 with h | h
    · rw [h, cum_zero] at hn0
      simp [BATCH_SIZE] at hn0
    · exact h
  have heq : cum resp n0 = BATCH_SIZE := by
    obtain ⟨m, hm⟩ : ∃ m, n0 = m + 1 := ⟨n0 - 1, by omega⟩
    have h1 := hmin m (by omega)
    have h2 := hle m h1
    rw [hm, cum_succ] at hn0 ⊢
    omega
  refine ⟨n0, hpos, heq, hmin, ?_, ?_⟩
  · intro fuel hf
    obtain ⟨h1, h2⟩ := tx_loop_complete port resp (alloc_loop pool BATCH_SIZE 0 seq).1 n0
      hle hn0 hmin (n0 - 1) 0 (by omega) fuel (by omega)
    rw [cum_zero] at h1 h2
    have hr : List.range' 0 (n0 - 1 + 1) = List.range n0 := by
      rw [List.range_eq_range']
      congr 1
      omega
    rw [hr] at h2
    have h3 : (send_pkts port pool resp fuel seq).attempts.map (fun a => a.accepted) =
        (List.range n0).map resp := h2
    refine ⟨h1, ?_, h3, ?_⟩
    · have := congrArg List.length h3
      simpa using this
    · rw [h3]
      exact heq
  · intro fuel hf
    have := tx_loop_stall port resp (alloc_loop pool BATCH_SIZE 0 seq).1 n0 hle hmin fuel 0
      (by omega)
    rw [cum_zero] at this
    exact this

theorem cum_const (c k : Nat) : cum (fun _ => c) k = c * k := by
  induction k with
  | zero => simp [cum]
  | succ k ih => rw [cum_succ, ih, Nat.mul_succ]

/-- A transmit queue that takes 32 buffers at each attempt: the batch is
complete after two attempts. -/
theorem send_pkts_batch_complete_witness :
    ∃ n, 0 < n ∧ cum (fun _ => 32) n = BATCH_SIZE ∧
      (∀ m, m < n → cum (fun _ => 32) m < BATCH_SIZE) ∧
      (∀ fuel, n ≤ fuel →
        (send_pkts 3 good_tx.pool (fun _ => 32) fuel 7).ret = some BATCH_SIZE ∧
        (send_pkts 3 good_tx.pool (fun _ => 32) fuel 7).attempts.length = n ∧
        (send_pkts 3 good_tx.pool (fun _ => 32) fuel 7).attempts.map (fun a => a.accepted) =
          (List.range n).map (fun _ => 32) ∧
        ((send_pkts 3 good_tx.pool (fun _ => 32) fuel 7).attempts.map
          (fun a => a.accepted)).sum = BATCH_SIZE) ∧
      (∀ fuel, fuel < n → (send_pkts 3 good_tx.pool (fun _ => 32) fuel 7).ret = none) :=
  send_pkts_batch_complete 3 good_tx.pool (fun _ => 32) 7
    (by
      intro k hk
      rw [cum_const] at hk ⊢
      simp only [BATCH_SIZE] at hk ⊢
      omega)
    ⟨2, by decide⟩

theorem send_pkts_seq (port : Nat) (pool : Nat → Mbuf) (resp : Nat → Nat) (fuel seq : Nat)
    (hseq : seq < U64) :
    (send_pkts port pool resp fuel seq).seq = (seq + BATCH_SIZE) % U64 :=
  alloc_loop_seq pool BATCH_SIZE 0 seq hseq

theorem send_pkts_bufs_length (port : Nat) (pool : Nat → Mbuf) (resp : Nat → Nat)
    (fuel seq : Nat) :
    (send_pkts port pool resp fuel seq).bufs.length = BATCH_SIZE :=
  alloc_loop_length pool BATCH_SIZE 0 seq

theorem send_pkts_bufs_get (port : Nat) (pool : Nat → Mbuf) (resp : Nat → Nat)
    (fuel seq i : Nat) (hseq : seq < U64) (hi : i < BATCH_SIZE) :
    (send_pkts port pool resp fuel seq).bufs[i]? =
      some { data_len := 60, pkt_len := 60, word0 := (seq + i) % U64 } :=
  alloc_loop_get pool BATCH_SIZE 0 seq i hseq hi

theorem mod_add_mod64 (a b c : Nat) : ((a + b) % U64 + c) % U64 = (a + (b + c)) % U64 := by
  rw [Nat.add_mod, Nat.mod_mod, ← Nat.add_mod]
  congr 1
  omega

theorem send_calls_get (calls : List Call) (seq : Nat) (hseq : seq < U64) (k : Nat)
    (r : SendResult) (hr : (send_calls calls seq)[k]? = some r) :
    r.bufs.length = BATCH_SIZE ∧
    ∀ i, i < BATCH_SIZE →
      r.bufs[i]? = some { data_len := 60, pkt_len := 60,
                          word0 := (seq + (BATCH_SIZE * k + i)) % U64 } := by
  induction calls generalizing seq k with
  | nil => simp [send_calls] at hr
  | cons c cs ih =>
    have h0 : ∀ r0, r0 = send_pkts c.port c.tx.pool c.tx.resp c.tx.fuel seq →
        r0.bufs.length = BATCH_SIZE ∧ ∀ i, i < BATCH_SIZE →
          r0.bufs[i]? = some { data_len := 60, pkt_len := 60,
                               word0 := (seq + (BATCH_SIZE * 0 + i)) % U64 } := by
      intro r0 h
      subst h
      refine ⟨send_pkts_bufs_length _ _ _ _ _, fun i hi => ?_⟩
      rw [send_pkts_bufs_get _ _ _ _ _ _ hseq hi]
      simp
    simp only [send_calls] at hr
    cases k with
    | zero =>
      split at hr
      · simp only [List.getElem?_cons_zero, Option.some.injEq] at hr
        exact h0 r hr.symm
      · simp only [List.getElem?_cons_zero, Option.some.injEq] at hr
        exact h0 r hr.symm
    | succ k =>
      split at hr
      · simp at hr
      · simp only [List.getElem?_cons_succ] at hr
        rw [send_pkts_seq _ _ _ _ _ hseq] at hr
        obtain ⟨h1, h2⟩ := ih _ (Nat.mod_lt _ (by decide)) k hr
        refine ⟨h1, fun i hi => ?_⟩
        rw [h2 i hi, mod_add_mod64]
        congr 3
        simp only [BATCH_SIZE]
        omega

theorem packets_get (calls : List Call) (seq : Nat) (hseq : seq < U64) (n : Nat) (b : Mbuf)
    (hb : (packets (send_calls calls seq))[n]? = some b) :
    b = { data_len := 60, pkt_len := 60, word0 := (seq + n) % U64 } := by
  induction calls generalizing seq n with
  | nil => simp [send_calls, packets] at hb
  | cons c cs ih =>
    have hlen := send_pkts_bufs_length c.port c.tx.pool c.tx.resp c.tx.fuel seq
    have hfirst : ∀ rest, n < BATCH_SIZE →
        ((send_pkts c.port c.tx.pool c.tx.resp c.tx.fuel seq).bufs ++ rest)[n]? = some b →
        b = { data_len := 60, pkt_len := 60, word0 := (seq + n) % U64 } := by
      intro rest hn h
      rw [List.getElem?_append_left (by rw [hlen]; exact hn),
        send_pkts_bufs_get _ _ _ _ _ _ hseq hn] at h
      exact (Option.some.inj h).symm
    simp only [send_calls] at hb
    split at hb
    · simp only [packets, List.append_nil] at hb
      have hn : n < BATCH_SIZE := by
        by_contra hcon
        rw [List.getElem?_eq_none (by rw [hlen]; omega)] at hb
        exact Option.noConfusion hb
      exact hfirst [] hn (by simpa using hb)
    · simp only [packets] at hb
      by_cases hn : n < BATCH_SIZE
      · exact hfirst _ hn hb
      · rw [List.getElem?_append_right (by rw [hlen]; omega), hlen,
          send_pkts_seq _ _ _ _ _ hseq] at hb
        rw [ih _ (Nat.mod_lt _ (by decide)) _ hb, mod_add_mod64]
        congr 3
        omega

theorem main_iter_inv (hz port1 port2 : Nat) (st : LoopState) (it : Iter)
    (r : LoopState × IterOut) (h : main_iter hz port1 port2 st it = some r) :
    ∃ n1 n2,
      (send_pkts port1 it.tx1.pool it.tx1.resp it.tx1.fuel st.seq).ret = some n1 ∧
      r.2.send1 = send_pkts port1 it.tx1.pool it.tx1.resp it.tx1.fuel st.seq ∧
      (send_pkts port2 it.tx2.pool it.tx2.resp it.tx2.fuel r.2.send1.seq).ret = some n2 ∧
      r.2.send2 = send_pkts port2 it.tx2.pool it.tx2.resp it.tx2.fuel r.2.send1.seq ∧
      rate_monitor hz
        { seq := r.2.send2.seq, sent := add64 (add64 st.sent n1) n2,
          next_print := st.next_print, last_sent := st.last_sent } it.time =
        some (r.1, r.2.report) := by
  simp only [main_iter] at h
  split at h
  · exact Option.noConfusion h
  · rename_i n1 h1
    split at h
    · exact Option.noConfusion h
    · rename_i n2 h2
      split at h
      · exact Option.noConfusion h
      · rename_i q hq
        simp only [Option.some.injEq] at h
        subst h
        exact ⟨n1, n2, h1, rfl, h2, rfl, hq⟩

theorem rate_monitor_seq (hz : Nat) (st : LoopState) (time : Nat)
    (r : LoopState × Option Report) (h : rate_monitor hz st time = some r) :
    r.1.seq = st.seq := by
  simp only [rate_monitor] at h
  split_ifs at h
  · simp only [Option.some.injEq] at h
    subst h
    rfl
  · simp only [Option.some.injEq] at h
    subst h
    rfl

theorem loop_packets_get (hz port1 port2 : Nat) (its : List Iter) (st : LoopState)
    (hseq : st.seq < U64) (n : Nat) (b : Mbuf)
    (hb : (loop_packets (main_loop hz port1 port2 st its))[n]? = some b) :
    b = { data_len := 60, pkt_len := 60, word0 := (st.seq + n) % U64 } := by
  induction its generalizing st n with
  | nil => simp [main_loop, loop_packets] at hb
  | cons it its ih =>
    simp only [main_loop] at hb
    split at hb
    · simp [loop_packets] at hb
    · rename_i r hr
      obtain ⟨n1, n2, -, e1, -, e2, hm⟩ := main_iter_inv hz port1 port2 st it r hr
      have hs := rate_monitor_seq hz _ it.time _ hm
      simp only at hs
      have hl1 : r.2.send1.bufs.length = BATCH_SIZE := by
        rw [e1]; exact send_pkts_bufs_length _ _ _ _ _
      have hl2 : r.2.send2.bufs.length = BATCH_SIZE := by
        rw [e2]; exact send_pkts_bufs_length _ _ _ _ _
      have hq1 : r.2.send1.seq = (st.seq + BATCH_SIZE) % U64 := by
        rw [e1]; exact send_pkts_seq _ _ _ _ _ hseq
      have hq1lt : r.2.send1.seq < U64 := by
        rw [hq1]; exact Nat.mod_lt _ (by decide)
      have hq2 : r.1.seq = (st.seq + (BATCH_SIZE + BATCH_SIZE)) % U64 := by
        rw [hs, e2, send_pkts_seq _ _ _ _ _ hq1lt, hq1, mod_add_mod64]
      simp only [loop_packets] at hb
      by_cases hn : n < BATCH_SIZE
      · rw [List.getElem?_append_left (by rw [hl1]; exact hn), e1,
          send_pkts_bufs_get _ _ _ _ _ _ hseq hn] at hb
        exact (Option.some.inj hb).symm
      · rw [List.getElem?_append_right (by rw [hl1]; omega), hl1] at hb
        by_cases hn2 : n - BATCH_SIZE < BATCH_SIZE
        · rw [List.getElem?_append_left (by rw [hl2]; exact hn2), e2,
            send_pkts_bufs_get _ _ _ _ _ _ hq1lt hn2, hq1, mod_add_mod64] at hb
          rw [← Option.some.inj hb]
          have hsum : BATCH_SIZE + (n - BATCH_SIZE) = n := by omega
          rw [hsum]
        · rw [List.getElem?_append_right (by rw [hl2]; omega), hl2] at hb
          rw [ih r.1 (by rw [hq2]; exact Nat.mod_lt _ (by decide)) _ hb, hq2, mod_add_mod64]
          have hsum : BATCH_SIZE + BATCH_SIZE + (n - BATCH_SIZE - BATCH_SIZE) = n := by omega
          rw [hsum]

/-- Claim C2 (sequence monotonicity across ports). From counter value 0, for
any successive `send_pkts` calls on any ports, the `k`-th call (from 0) fills 64
buffers, the `i`-th of which carries `(64 * k + i) mod 2^64` in its first eight
payload bytes; so the `n`-th buffer synthesized overall carries `n mod 2^64`,
which is `n` itself below `2^64`; the same holds for the buffers synthesized by
the transmit loop of `main`, whatever its two ports. -/
theorem seq_monotone_across_ports :
    (∀ (calls : List Call) (k : Nat) (r : SendResult),
      (send_calls calls 0)[k]? = some r →
        r.bufs.length = 64 ∧
        ∀ i, i < 64 → (r.bufs[i]?).map Mbuf.word0 = some ((64 * k + i) % 2 ^ 64)) ∧
    (∀ (calls : List Call) (n : Nat) (b : Mbuf),
      (packets (send_calls calls 0))[n]? = some b →
        b.word0 = n % 2 ^ 64 ∧ (n < 2 ^ 64 → b.word0 = n)) ∧
    (∀ (hz port1 port2 : Nat) (its : List Iter) (n : Nat) (b : Mbuf),
      (loop_packets (main_loop hz port1 port2 (loop_init hz) its))[n]? = some b →
        b.word0 = n % 2 ^ 64 ∧ (n < 2 ^ 64 → b.word0 = n)) := by
  refine ⟨?_, ?_, ?_⟩
  · intro calls k r hr
    obtain ⟨h1, h2⟩ := send_calls_get calls 0 (by decide) k r hr
    refine ⟨h1, fun i hi => ?_⟩
    rw [h2 i hi]
    simp [BATCH_SIZE, U64]
  · intro calls n b hb
    have h := packets_get calls 0 (by decide) n b hb
    subst h
    simp only [Nat.zero_add, U64]
    exact ⟨trivial, fun hn => Nat.mod_eq_of_lt hn⟩
  · intro hz port1 port2 its n b hb
    have h := loop_packets_get hz port1 port2 its (loop_init hz)
      (by simp [loop_init, U64]) n b hb
    subst h
    simp only [loop_init, Nat.zero_add, U64]
    exact ⟨trivial, fun hn => Nat.mod_eq_of_lt hn⟩

/-- Two calls, on port 0 and then on port 1: buffer 3 of the second call
carries 67. -/
theorem seq_monotone_across_ports_witness :
    ((send_pkts 1 good_tx.pool good_tx.resp good_tx.fuel 64).bufs[3]?).map Mbuf.word0 =
      some ((64 * 1 + 3) % 2 ^ 64) :=
  (seq_monotone_across_ports.1
    [{ port := 0, tx := good_tx }, { port := 1, tx := good_tx }] 1
    (send_pkts 1 good_tx.pool good_tx.resp good_tx.fuel 64) (by decide)).2 3 (by decide)

theorem config_port_elim (e : Env) (g : Global) (port : Nat) (simple_tx : Bool)
    (P : Bool × Global → Prop) (tc : TxConf)
    (htc : tc = { g.tx_conf with
      txq_flags := if simple_tx
        then e.ETH_TXQ_FLAGS_NOMULTSEGS ||| e.ETH_TXQ_FLAGS_NOOFFLOADS
        else e.ETH_TXQ_FLAGS_NOMULTSEGS })
    (H1 : ∀ rc : Int, rc ≠ 0 → P (false, { g with out := g.out ++
      [Event.call (.dev_configure port 1 1) rc, Event.printf .configure_failed [(port : Int), rc]] }))
    (H2 : ∀ rc : Int, rc ≠ 0 → P (false, { tx_conf := tc, pool_id := g.pool_id, out := g.out ++
      [Event.call (.dev_configure port 1 1) 0, Event.call (.tx_queue_setup port 0 TX_DESCS tc) rc,
       Event.printf .queue_failed [(port : Int), rc]] }))
    (H3 : ∀ rc : Int, rc ≠ 0 → P (false, { tx_conf := tc, pool_id := g.pool_id + 1, out := g.out ++
      [Event.call (.dev_configure port 1 1) 0, Event.call (.tx_queue_setup port 0 TX_DESCS tc) 0,
       Event.mempool_create g.pool_id NB_MBUF MEMPOOL_CACHE_SIZE,
       Event.call (.rx_queue_setup port 0 RX_DESCS rx_conf g.pool_id) rc,
       Event.printf .queue_failed [(port : Int), rc]] }))
    (H4 : ∀ rc : Int, rc ≠ 0 → P (false, { tx_conf := tc, pool_id := g.pool_id + 1, out := g.out ++
      [Event.call (.dev_configure port 1 1) 0, Event.call (.tx_queue_setup port 0 TX_DESCS tc) 0,
       Event.mempool_create g.pool_id NB_MBUF MEMPOOL_CACHE_SIZE,
       Event.call (.rx_queue_setup port 0 RX_DESCS rx_conf g.pool_id) 0,
       Event.call (.dev_start port) rc,
       Event.printf .start_failed [(port : Int), rc]] }))
    (H5 : P (true, { tx_conf := tc, pool_id := g.pool_id + 1, out := g.out ++
      [Event.call (.dev_configure port 1 1) 0, Event.call (.tx_queue_setup port 0 TX_DESCS tc) 0,
       Event.mempool_create g.pool_id NB_MBUF MEMPOOL_CACHE_SIZE,
       Event.call (.rx_queue_setup port 0 RX_DESCS rx_conf g.pool_id) 0,
       Event.call (.dev_start port) 0] })) :
    P (config_port e g port simple_tx) := by
  subst htc
  unfold config_port
  simp only [driver_call, emit, make_mempool]
  generalize e.drv g.out (.dev_configure port 1 1) = rc1
  by_cases h1 : rc1 = 0
  · subst h1
    simp only [ne_eq, not_true_eq_false, if_false]
    generalize e.drv _ (DriverCall.tx_queue_setup _ _ _ _) = rc2
    by_cases h2 : rc2 = 0
    · subst h2
      simp only [ne_eq, not_true_eq_false, if_false]
      generalize e.drv _ (DriverCall.rx_queue_setup _ _ _ _ _) = rc3
      by_cases h3 : rc3 = 0
      · subst h3
        simp only [ne_eq, not_true_eq_false, if_false]
        generalize e.drv _ (DriverCall.dev_start _) = rc4
        by_cases h4 : rc4 = 0
        · subst h4
          simpa [List.append_assoc] using H5
        · simpa [List.append_assoc, h4] using H4 rc4 h4
      · simpa [List.append_assoc, h3] using H3 rc3 h3
    · simpa [List.append_assoc, h2] using H2 rc2 h2
  · simpa [List.append_assoc, h1] using H1 rc1 h1

theorem config_port_report (e : Env) (g : Global) (port : Nat) (simple_tx : Bool) :
    ∃ new, (config_port e g port simple_tx).2.out = g.out ++ new ∧
      (calls_of new).length ≤ 4 ∧
      (calls_of new).map (fun c => c.1.stage) = List.range (calls_of new).length ∧
      (∀ c ∈ calls_of new, c.1.port = port) ∧
      count_configure new = 1 ∧
      ((config_port e g port simple_tx).1 = false ↔ ∃ c ∈ calls_of new, c.2 ≠ 0) ∧
      ((config_port e g port simple_tx).1 = true →
        (calls_of new).length = 4 ∧ prints_of new = []) ∧
      ((config_port e g port simple_tx).1 = false →
        ∃ pre c rc f, new = pre ++ [Event.call c rc, Event.printf f [(port : Int), rc]] ∧
          rc ≠ 0 ∧ (∀ c1 ∈ calls_of pre, c1.2 = 0) ∧ prints_of pre = []) := by
  apply config_port_elim e g port simple_tx
    (fun r => ∃ new, r.2.out = g.out ++ new ∧
      (calls_of new).length ≤ 4 ∧
      (calls_of new).map (fun c => c.1.stage) = List.range (calls_of new).length ∧
      (∀ c ∈ calls_of new, c.1.port = port) ∧
      count_configure new = 1 ∧
      (r.1 = false ↔ ∃ c ∈ calls_of new, c.2 ≠ 0) ∧
      (r.1 = true → (calls_of new).length = 4 ∧ prints_of new = []) ∧
      (r.1 = false →
        ∃ pre c rc f, new = pre ++ [Event.call c rc, Event.printf f [(port : Int), rc]] ∧
          rc ≠ 0 ∧ (∀ c1 ∈ calls_of pre, c1.2 = 0) ∧ prints_of pre = [])) _ rfl
  · intro rc h
    refine ⟨_, rfl, by simp [calls_of], by simp [calls_of, DriverCall.stage, List.range_succ],
      by simp [calls_of, DriverCall.port], by simp [count_configure, calls_of, DriverCall.stage],
      by simp [calls_of, h], by simp, fun _ => ⟨[], _, rc, _, rfl, h, by simp [calls_of],
        by simp [prints_of]⟩⟩
  · intro rc h
    refine ⟨_, rfl, by simp [calls_of], by simp [calls_of, DriverCall.stage, List.range_succ],
      by simp [calls_of, DriverCall.port], by simp [count_configure, calls_of, DriverCall.stage],
      by simp [calls_of, h], by simp, fun _ => ⟨[_], _, rc, _, rfl, h, by simp [calls_of],
        by simp [prints_of]⟩⟩
  · intro rc h
    refine ⟨_, rfl, by simp [calls_of], by simp [calls_of, DriverCall.stage, List.range_succ],
      by simp [calls_of, DriverCall.port], by simp [count_configure, calls_of, DriverCall.stage],
      by simp [calls_of, h], by simp, fun _ => ⟨[_, _, _], _, rc, _, rfl, h, by simp [calls_of],
        by simp [prints_of]⟩⟩
  · intro rc h
    refine ⟨_, rfl, by simp [calls_of], by simp [calls_of, DriverCall.stage, List.range_succ],
      by simp [calls_of, DriverCall.port], by simp [count_configure, calls_of, DriverCall.stage],
      by simp [calls_of, h], by simp, fun _ => ⟨[_, _, _, _], _, rc, _, rfl, h,
        by simp [calls_of], by simp [prints_of]⟩⟩
  · refine ⟨_, rfl, by simp [calls_of], by simp [calls_of, DriverCall.stage, List.range_succ],
      by simp [calls_of, DriverCall.port], by simp [count_configure, calls_of, DriverCall.stage],
      by simp [calls_of], by simp [calls_of, prints_of], by simp⟩

theorem count_configure_append (a b : List Event) :
    count_configure (a ++ b) = count_configure a + count_configure b := by
  simp [count_configure, calls_of, List.filterMap_append]

theorem parse_args_calls (e : Env) (argv : List String) :
    calls_of (parse_args e argv).2.out = [] := by
  unfold parse_args
  simp only [emit, Global.init]
  split_ifs <;> simp [calls_of]

theorem config_port_count (e : Env) (g : Global) (port : Nat) (simple_tx : Bool) :
    count_configure (config_port e g port simple_tx).2.out = count_configure g.out + 1 := by
  obtain ⟨new, h1, -, -, -, h2, -⟩ := config_port_report e g port simple_tx
  rw [h1, count_configure_append, h2]

theorem main_startup_fatal (e : Env) (argv : List String) (simple_tx : Bool)
    (port1 port2 : Nat) (g0 : Global)
    (hp : parse_args e argv = (some (simple_tx, port1, port2), g0)) :
    ((config_port e g0 port1 simple_tx).1 = false →
      main_startup e argv = (Startup.exit (-1), (config_port e g0 port1 simple_tx).2) ∧
      count_configure (main_startup e argv).2.out = 1 ∧
      ∀ its, (main e argv its).status = some (-1) ∧ (main e argv its).iters = []) ∧
    ((config_port e g0 port1 simple_tx).1 = true →
      (config_port e (config_port e g0 port1 simple_tx).2 port2 simple_tx).1 = false →
      main_startup e argv =
        (Startup.exit (-1),
          (config_port e (config_port e g0 port1 simple_tx).2 port2 simple_tx).2) ∧
      count_configure (main_startup e argv).2.out = 2 ∧
      ∀ its, (main e argv its).status = some (-1) ∧ (main e argv its).iters = []) := by
  have h0 : count_configure g0.out = 0 := by
    have := parse_args_calls e argv
    rw [hp] at this
    simp only at this
    simp [count_configure, this]
  constructor
  · intro h1
    have hm : main_startup e argv =
        (Startup.exit (-1), (config_port e g0 port1 simple_tx).2) := by
      simp [main_startup, hp, h1]
    refine ⟨hm, ?_, ?_⟩
    · rw [hm]
      simp only
      rw [config_port_count, h0]
    · intro its
      simp [main, hm]
  · intro h1 h2
    have hm : main_startup e argv = (Startup.exit (-1),
        (config_port e (config_port e g0 port1 simple_tx).2 port2 simple_tx).2) := by
      simp [main_startup, hp, h1, h2]
    refine ⟨hm, ?_, ?_⟩
    · rw [hm]
      simp only
      rw [config_port_count, config_port_count, h0]
    · intro its
      simp [main, hm]

/-- Claim C4 (fatal configuration propagation). A `config_port` call issues its
driver calls for the given port in the order device configure, tx queue setup,
rx queue setup, device start; it returns false exactly when one of the calls it
issued reported a non-zero code; in that case the failing call is the last one
issued, every earlier one reported 0, and the call is followed by one report that
carries the port number and the code and by nothing else; on success all four
calls were issued and nothing was reported. In `main`, once the arguments are
accepted: if `config_port` fails for `port1`, `main` returns -1 right after it,
having called `config_port` once, and no loop iteration runs; if it succeeds for
`port1` and fails for `port2`, `main` returns -1 right after the second call and no
loop iteration runs. -/
theorem fatal_config_propagation :
    (∀ (e : Env) (g : Global) (port : Nat) (simple_tx : Bool),
      ∃ new, (config_port e g port simple_tx).2.out = g.out ++ new ∧
        (calls_of new).length ≤ 4 ∧
        (calls_of new).map (fun c => c.1.stage) = List.range (calls_of new).length ∧
        (∀ c ∈ calls_of new, c.1.port = port) ∧
        count_configure new = 1 ∧
        ((config_port e g port simple_tx).1 = false ↔ ∃ c ∈ calls_of new, c.2 ≠ 0) ∧
        ((config_port e g port simple_tx).1 = true →
          (calls_of new).length = 4 ∧ prints_of new = []) ∧
        ((config_port e g port simple_tx).1 = false →
          ∃ pre c rc f, new = pre ++ [Event.call c rc, Event.printf f [(port : Int), rc]] ∧
            rc ≠ 0 ∧ (∀ c1 ∈ calls_of pre, c1.2 = 0) ∧ prints_of pre = [])) ∧
    (∀ (e : Env) (argv : List String) (simple_tx : Bool) (port1 port2 : Nat) (g0 : Global),
      parse_args e argv = (some (simple_tx, port1, port2), g0) →
      ((config_port e g0 port1 simple_tx).1 = false →
        main_startup e argv = (Startup.exit (-1), (config_port e g0 port1 simple_tx).2) ∧
        count_configure (main_startup e argv).2.out = 1 ∧
        ∀ its, (main e argv its).status = some (-1) ∧ (main e argv its).iters = []) ∧
      ((config_port e g0 port1 simple_tx).1 = true →
        (config_port e (config_port e g0 port1 simple_tx).2 port2 simple_tx).1 = false →
        main_startup e argv =
          (Startup.exit (-1),
            (config_port e (config_port e g0 port1 simple_tx).2 port2 simple_tx).2) ∧
        count_configure (main_startup e argv).2.out = 2 ∧
        ∀ its, (main e argv its).status = some (-1) ∧ (main e argv its).iters = [])) :=
  ⟨config_port_report, main_startup_fatal⟩

/-- With a driver that refuses to start port 1: `main` on ports 1 and 0 returns
-1 after one `config_port` call, on ports 0 and 1 after two. -/
theorem fatal_config_propagation_witness :
    (main_startup bad_env ["tx", "1", "0"]).1 = Startup.exit (-1) ∧
    count_configure (main_startup bad_env ["tx", "1", "0"]).2.out = 1 ∧
    prints_of (main_startup bad_env ["tx", "1", "0"]).2.out =
      [(Fmt.full_path, []), (Fmt.using_ports, [1, 0]), (Fmt.start_failed, [1, -5])] ∧
    (main_startup bad_env ["tx", "0", "1"]).1 = Startup.exit (-1) ∧
    count_configure (main_startup bad_env ["tx", "0", "1"]).2.out = 2 := by
  have h1 := (fatal_config_propagation.2 bad_env ["tx", "1", "0"] false 1 0
    (parse_args bad_env ["tx", "1", "0"]).2 (by decide)).1 (by decide)
  have h2 := (fatal_config_propagation.2 bad_env ["tx", "0", "1"] false 0 1
    (parse_args bad_env ["tx", "0", "1"]).2 (by decide)).2 (by decide) (by decide)
  refine ⟨?_, h1.2.1, by decide, ?_, h2.2.1⟩
  · rw [h1.1]
  · rw [h2.1]

theorem config_port_first_call (e : Env) (g : Global) (port : Nat) (simple_tx : Bool) :
    ∃ rc rest, (config_port e g port simple_tx).2.out =
      g.out ++ Event.call (.dev_configure port 1 1) rc :: rest ∧
      Event.printf .usage [] ∉ rest := by
  apply config_port_elim e g port simple_tx
    (fun r => ∃ rc rest, r.2.out = g.out ++ Event.call (.dev_configure port 1 1) rc :: rest ∧
      Event.printf .usage [] ∉ rest) _ rfl
  · intro rc _
    exact ⟨rc, _, rfl, by simp⟩
  · intro rc _
    exact ⟨0, _, rfl, by simp⟩
  · intro rc _
    exact ⟨0, _, rfl, by simp⟩
  · intro rc _
    exact ⟨0, _, rfl, by simp⟩
  · exact ⟨0, _, rfl, by simp⟩

theorem main_startup_first_call (e : Env) (argv : List String) (simple_tx : Bool)
    (port1 port2 : Nat) (g0 : Global)
    (hp : parse_args e argv = (some (simple_tx, port1, port2), g0)) :
    ∃ rc rest, (main_startup e argv).2.out =
      g0.out ++ Event.call (.dev_configure port1 1 1) rc :: rest ∧
      Event.printf .usage [] ∉ rest := by
  obtain ⟨rc, rest, h1, hu1⟩ := config_port_first_call e g0 port1 simple_tx
  obtain ⟨rc2, rest2, h2, hu2⟩ :=
    config_port_first_call e (config_port e g0 port1 simple_tx).2 port2 simple_tx
  simp only [main_startup, hp]
  split_ifs
  · exact ⟨rc, rest, h1, hu1⟩
  · refine ⟨rc, rest ++ Event.call (.dev_configure port2 1 1) rc2 :: rest2, ?_, ?_⟩
    · rw [h2, h1]
      simp
    · simp [hu1, hu2]
  · refine ⟨rc, rest ++ Event.call (.dev_configure port2 1 1) rc2 :: rest2 ++
      [Event.mempool_create
        (config_port e (config_port e g0 port1 simple_tx).2 port2 simple_tx).2.pool_id
        NB_MBUF MEMPOOL_CACHE_SIZE], ?_, ?_⟩
    · simp only [make_mempool]
      rw [h2, h1]
      simp
    · simp [hu1, hu2]

theorem parse_args_usage (e : Env) (argv : List String) (f : Fmt)
    (hf : f = if (e.getopt argv).1 % 256 = 115 then Fmt.simple_path else Fmt.full_path)
    (h : (if (e.getopt argv).1 % 256 = 115 then argv.length ≠ 4 else argv.length ≠ 3)) :
    main_startup e argv =
      (Startup.exit (-1), { Global.init with out := [Event.printf f [], Event.printf .usage []] }) := by
  subst hf
  by_cases hs : (e.getopt argv).1 % 256 = 115
  · simp only [hs, if_true] at h
    have h3 : ¬ ((argv.length : Int) - 1 = 3) := by omega
    simp [main_startup, parse_args, hs, h3, emit, Global.init]
  · simp only [hs, if_false] at h
    have h3 : ¬ ((argv.length : Int) = 3) := by omega
    simp [main_startup, parse_args, hs, h3, emit, Global.init]

theorem parse_args_accept_simple (e : Env) (argv : List String)
    (hs : (e.getopt argv).1 % 256 = 115) (h : argv.length = 4) :
    parse_args e argv =
      (some (true, (e.atoi ((e.getopt argv).2.getD 2 "") % 256).toNat,
          (e.atoi ((e.getopt argv).2.getD 3 "") % 256).toNat),
        { Global.init with out :=
          [Event.printf .simple_path [],
           Event.printf .using_ports
            [((e.atoi ((e.getopt argv).2.getD 2 "") % 256).toNat : Int),
             ((e.atoi ((e.getopt argv).2.getD 3 "") % 256).toNat : Int)]] }) := by
  have h3 : (argv.length : Int) - 1 = 3 := by omega
  have hd : ∀ i, ((e.getopt argv).2.drop 1).getD i "" = (e.getopt argv).2.getD (i + 1) "" := by
    intro i
    simp [List.getD_eq_getElem?_getD, List.getElem?_drop, Nat.add_comm]
  simp [parse_args, hs, h3, emit, Global.init, hd]

theorem parse_args_accept_full (e : Env) (argv : List String)
    (hs : (e.getopt argv).1 % 256 ≠ 115) (h : argv.length = 3) :
    parse_args e argv =
      (some (false, (e.atoi ((e.getopt argv).2.getD 1 "") % 256).toNat,
          (e.atoi ((e.getopt argv).2.getD 2 "") % 256).toNat),
        { Global.init with out :=
          [Event.printf .full_path [],
           Event.printf .using_ports
            [((e.atoi ((e.getopt argv).2.getD 1 "") % 256).toNat : Int),
             ((e.atoi ((e.getopt argv).2.getD 2 "") % 256).toNat : Int)]] }) := by
  have h3 : (argv.length : Int) = 3 := by omega
  simp [parse_args, hs, h3, emit, Global.init]

/-- Claim C5, as amended (usage errors are decided by the argument count
alone). When the `getopt` call reports the option `s`, `main` prints the usage
message and returns -1 without any driver call exactly when the argument vector
does not have 4 elements; otherwise it does so exactly when the vector does not
have 3 elements. In the remaining cases it prints no usage message and goes on
to configure the port `atoi` makes of the first port argument, read from the
vector as `getopt` left it and reduced modulo 256, whatever the text of the
port arguments is. -/
theorem cli_usage_by_count (e : Env) (argv : List String) :
    ((e.getopt argv).1 % 256 = 115 →
      (argv.length ≠ 4 →
        main_startup e argv =
          (Startup.exit (-1),
            { Global.init with
              out := [Event.printf .simple_path [], Event.printf .usage []] }) ∧
        ∀ its, (main e argv its).status = some (-1)) ∧
      (argv.length = 4 →
        ∃ rc rest, (main_startup e argv).2.out =
          [Event.printf .simple_path [],
           Event.printf .using_ports
            [((e.atoi ((e.getopt argv).2.getD 2 "") % 256).toNat : Int),
             ((e.atoi ((e.getopt argv).2.getD 3 "") % 256).toNat : Int)],
           Event.call
            (.dev_configure (e.atoi ((e.getopt argv).2.getD 2 "") % 256).toNat 1 1) rc] ++
            rest ∧
          Event.printf .usage [] ∉ rest)) ∧
    ((e.getopt argv).1 % 256 ≠ 115 →
      (argv.length ≠ 3 →
        main_startup e argv =
          (Startup.exit (-1),
            { Global.init with
              out := [Event.printf .full_path [], Event.printf .usage []] }) ∧
        ∀ its, (main e argv its).status = some (-1)) ∧
      (argv.length = 3 →
        ∃ rc rest, (main_startup e argv).2.out =
          [Event.printf .full_path [],
           Event.printf .using_ports
            [((e.atoi ((e.getopt argv).2.getD 1 "") % 256).toNat : Int),
             ((e.atoi ((e.getopt argv).2.getD 2 "") % 256).toNat : Int)],
           Event.call
            (.dev_configure (e.atoi ((e.getopt argv).2.getD 1 "") % 256).toNat 1 1) rc] ++
            rest ∧
          Event.printf .usage [] ∉ rest)) := by
  refine ⟨fun hs => ⟨fun h => ?_, fun h => ?_⟩, fun hs => ⟨fun h => ?_, fun h => ?_⟩⟩
  · have hm := parse_args_usage e argv .simple_path (by simp [hs]) (by simp [hs, h])
    exact ⟨hm, fun its => by simp [main, hm]⟩
  · obtain ⟨rc, rest, h1, h2⟩ :=
      main_startup_first_call e argv _ _ _ _ (parse_args_accept_simple e argv hs h)
    exact ⟨rc, rest, by simpa using h1, h2⟩
  · have hm := parse_args_usage e argv .full_path (by simp [hs]) (by simp [hs, h])
    exact ⟨hm, fun its => by simp [main, hm]⟩
  · obtain ⟨rc, rest, h1, h2⟩ :=
      main_startup_first_call e argv _ _ _ _ (parse_args_accept_full e argv hs h)
    exact ⟨rc, rest, by simpa using h1, h2⟩

/-- With the C library's `getopt` and `atoi`: one port argument is a usage
error; `tx abc 1` goes on to configure port 0 with ports 0 and 1; `tx 5 --`,
which `getopt` leaves as `tx -- 5`, goes on to configure port 0 with ports 0
and 5; `tx -s 2 1` goes on to configure port 2. -/
theorem cli_usage_by_count_witness :
    (main_startup good_env ["tx", "1"] =
      (Startup.exit (-1),
        { Global.init with out := [Event.printf .full_path [], Event.printf .usage []] }) ∧
      ∀ its, (main good_env ["tx", "1"] its).status = some (-1)) ∧
    (∃ rc rest, (main_startup good_env ["tx", "abc", "1"]).2.out =
      [Event.printf .full_path [], Event.printf .using_ports [0, 1],
       Event.call (.dev_configure 0 1 1) rc] ++ rest ∧
      Event.printf .usage [] ∉ rest) ∧
    (libc_getopt ["tx", "5", "--"] = (-1, ["tx", "--", "5"]) ∧
      ∃ rc rest, (main_startup good_env ["tx", "5", "--"]).2.out =
        [Event.printf .full_path [], Event.printf .using_ports [0, 5],
         Event.call (.dev_configure 0 1 1) rc] ++ rest ∧
        Event.printf .usage [] ∉ rest) ∧
    (∃ rc rest, (main_startup good_env ["tx", "-s", "2", "1"]).2.out =
      [Event.printf .simple_path [], Event.printf .using_ports [2, 1],
       Event.call (.dev_configure 2 1 1) rc] ++ rest ∧
      Event.printf .usage [] ∉ rest) :=
  ⟨((cli_usage_by_count good_env ["tx", "1"]).2 (by decide)).1 (by decide),
   ((cli_usage_by_count good_env ["tx", "abc", "1"]).2 (by decide)).2 (by decide),
   ⟨by decide, ((cli_usage_by_count good_env ["tx", "5", "--"]).2 (by decide)).2 (by decide)⟩,
   ((cli_usage_by_count good_env ["tx", "-s", "2", "1"]).1 (by decide)).2 (by decide)⟩

/-- Claim C5 fails as stated: with the C library's `getopt` and `atoi`, the
argument vectors `tx abc 1` (a port argument that is not a decimal integer) and
`tx -x 1` (an unrecognized flag) print no usage message; both are taken as ports
0 and 1, both ports are configured and the transmit loop is entered. -/
theorem cli_malformed_port_counterexample :
    (libc_getopt ["tx", "abc", "1"] = (-1, ["tx", "abc", "1"]) ∧
      libc_atoi "abc" = 0 ∧
      Event.printf .usage [] ∉ (main_startup good_env ["tx", "abc", "1"]).2.out ∧
      (main_startup good_env ["tx", "abc", "1"]).1 = Startup.running 0 1 ∧
      count_configure (main_startup good_env ["tx", "abc", "1"]).2.out = 2 ∧
      (main good_env ["tx", "abc", "1"] []).status = none) ∧
    (libc_getopt ["tx", "-x", "1"] = (63, ["tx", "-x", "1"]) ∧
      libc_atoi "-x" = 0 ∧
      Event.printf .usage [] ∉ (main_startup good_env ["tx", "-x", "1"]).2.out ∧
      (main_startup good_env ["tx", "-x", "1"]).1 = Startup.running 0 1 ∧
      count_configure (main_startup good_env ["tx", "-x", "1"]).2.out = 2 ∧
      (main good_env ["tx", "-x", "1"] []).status = none) := by
  decide

theorem config_port_conf (e : Env) (g : Global) (port : Nat) (simple_tx : Bool)
    (flags0 : Nat) (hg : g.tx_conf = { tx_conf with txq_flags := flags0 }) :
    ∃ new flags1, (config_port e g port simple_tx).2.out = g.out ++ new ∧
      (config_port e g port simple_tx).2.tx_conf = { tx_conf with txq_flags := flags1 } ∧
      (∀ c rc, Event.call c rc ∈ new → call_conforms e simple_tx c) ∧
      ((config_port e g port simple_tx).1 = true →
        ∃ rc, Event.call (.tx_queue_setup port 0 512 (mode_tx_conf e simple_tx)) rc ∈ new) := by
  have htc : ({ g.tx_conf with
      txq_flags := if simple_tx
        then e.ETH_TXQ_FLAGS_NOMULTSEGS ||| e.ETH_TXQ_FLAGS_NOOFFLOADS
        else e.ETH_TXQ_FLAGS_NOMULTSEGS } : TxConf) = mode_tx_conf e simple_tx := by
    rw [hg]
    rfl
  apply config_port_elim e g port simple_tx
    (fun r => ∃ new flags1, r.2.out = g.out ++ new ∧
      r.2.tx_conf = { tx_conf with txq_flags := flags1 } ∧
      (∀ c rc, Event.call c rc ∈ new → call_conforms e simple_tx c) ∧
      (r.1 = true →
        ∃ rc, Event.call (.tx_queue_setup port 0 512 (mode_tx_conf e simple_tx)) rc ∈ new))
    (mode_tx_conf e simple_tx) htc.symm
  · intro rc _
    refine ⟨_, flags0, rfl, hg, ?_, by simp⟩
    intro c rc1 hc
    simp at hc
    obtain ⟨rfl, -⟩ := hc
    simp [call_conforms]
  · intro rc _
    refine ⟨_, _, rfl, rfl, ?_, by simp⟩
    intro c rc1 hc
    simp at hc
    rcases hc with ⟨rfl, -⟩ | ⟨rfl, -⟩ <;> simp [call_conforms, TX_DESCS]
  · intro rc _
    refine ⟨_, _, rfl, rfl, ?_, by simp⟩
    intro c rc1 hc
    simp at hc
    rcases hc with ⟨rfl, -⟩ | ⟨rfl, -⟩ | ⟨rfl, -⟩ <;>
      simp [call_conforms, TX_DESCS, RX_DESCS, rx_conf, RX_PTHRESH, RX_HTHRESH, RX_WTHRESH]
  · intro rc _
    refine ⟨_, _, rfl, rfl, ?_, by simp⟩
    intro c rc1 hc
    simp at hc
    rcases hc with ⟨rfl, -⟩ | ⟨rfl, -⟩ | ⟨rfl, -⟩ | ⟨rfl, -⟩ <;>
      simp [call_conforms, TX_DESCS, RX_DESCS, rx_conf, RX_PTHRESH, RX_HTHRESH, RX_WTHRESH]
  · refine ⟨_, _, rfl, rfl, ?_, fun _ => ⟨0, by simp [TX_DESCS]⟩⟩
    intro c rc1 hc
    simp at hc
    rcases hc with ⟨rfl, -⟩ | ⟨rfl, -⟩ | ⟨rfl, -⟩ | ⟨rfl, -⟩ <;>
      simp [call_conforms, TX_DESCS, RX_DESCS, rx_conf, RX_PTHRESH, RX_HTHRESH, RX_WTHRESH]

theorem mem_calls_of (evs : List Event) (c : DriverCall) (rc : Int) :
    Event.call c rc ∈ evs ↔ (c, rc) ∈ calls_of evs := by
  simp only [calls_of, List.mem_filterMap]
  constructor
  · intro h
    exact ⟨_, h, rfl⟩
  · rintro ⟨ev, hev, h⟩
    cases ev <;> simp at h
    obtain ⟨rfl, rfl⟩ := h
    exact hev

theorem parse_args_simple (e : Env) (argv : List String) (s : Bool) (port1 port2 : Nat)
    (g0 : Global) (hp : parse_args e argv = (some (s, port1, port2), g0)) :
    (s = true ↔ (e.getopt argv).1 % 256 = 115) ∧ g0.tx_conf = tx_conf := by
  unfold parse_args at hp
  simp only [emit, Global.init] at hp
  split_ifs at hp with h1 h2 h1 <;> simp at hp <;> obtain ⟨⟨rfl, -, -⟩, rfl⟩ := hp
  · exact ⟨by simp at h1; simp [h1], rfl⟩
  · exact ⟨by simp at h1; simp [h1], rfl⟩

theorem main_startup_conf (e : Env) (argv : List String) :
    (∀ c rc, Event.call c rc ∈ (main_startup e argv).2.out →
      call_conforms e (decide ((e.getopt argv).1 % 256 = 115)) c) ∧
    (∀ port1 port2, (main_startup e argv).1 = Startup.running port1 port2 →
      ∃ rc1 rc2,
        Event.call (.tx_queue_setup port1 0 512
          (mode_tx_conf e (decide ((e.getopt argv).1 % 256 = 115)))) rc1 ∈
            (main_startup e argv).2.out ∧
        Event.call (.tx_queue_setup port2 0 512
          (mode_tx_conf e (decide ((e.getopt argv).1 % 256 = 115)))) rc2 ∈
            (main_startup e argv).2.out) := by
  have hc0 := parse_args_calls e argv
  rcases hp : parse_args e argv with ⟨_ | ⟨s, p1, p2⟩, g0⟩
  · rw [hp] at hc0
    simp only at hc0
    constructor
    · intro c rc h
      simp only [main_startup, hp] at h
      rw [mem_calls_of, hc0] at h
      simp at h
    · intro port1 port2 h
      simp [main_startup, hp] at h
  · rw [hp] at hc0
    simp only at hc0
    obtain ⟨hs, htc⟩ := parse_args_simple e argv s p1 p2 g0 hp
    have hsd : decide ((e.getopt argv).1 % 256 = 115) = s := by
      cases s <;> simp_all
    rw [hsd]
    obtain ⟨new1, f1, ho1, ht1, hc1, hq1⟩ := config_port_conf e g0 p1 s 0 htc
    obtain ⟨new2, f2, ho2, -, hc2, hq2⟩ :=
      config_port_conf e (config_port e g0 p1 s).2 p2 s f1 ht1
    have hg0 : ∀ c rc, Event.call c rc ∉ g0.out := by
      intro c rc h
      rw [mem_calls_of, hc0] at h
      simp at h
    constructor
    · intro c rc h
      simp only [main_startup, hp] at h
      split_ifs at h
      · rw [ho1] at h
        rcases List.mem_append.1 h with h | h
        · exact absurd h (hg0 c rc)
        · exact hc1 c rc h
      · rw [ho2, ho1] at h
        rcases List.mem_append.1 h with h | h
        · rcases List.mem_append.1 h with h | h
          · exact absurd h (hg0 c rc)
          · exact hc1 c rc h
        · exact hc2 c rc h
      · simp only [make_mempool] at h
        rw [ho2, ho1] at h
        rcases List.mem_append.1 h with h | h
        · rcases List.mem_append.1 h with h | h
          · rcases List.mem_append.1 h with h | h
            · exact absurd h (hg0 c rc)
            · exact hc1 c rc h
          · exact hc2 c rc h
        · simp at h
    · intro port1 port2 h
      simp only [main_startup, hp] at h ⊢
      split_ifs at h ⊢ with h1 h2
      simp only [Prod.mk.injEq, Startup.running.injEq] at h
      obtain ⟨rfl, rfl⟩ := h
      obtain ⟨rc1, hr1⟩ := hq1 (by simpa using h1)
      obtain ⟨rc2, hr2⟩ := hq2 (by simpa using h2)
      refine ⟨rc1, rc2, ?_, ?_⟩
      · simp only [make_mempool]
        rw [ho2, ho1]
        simp [hr1]
      · simp only [make_mempool]
        rw [ho2]
        simp [hr2]

/-- Claim C6 (mode selection). Whatever flags an earlier call left in the
shared `tx_conf`, every driver call of a `config_port` call carries the values
of its mode: one rx and one tx queue, 512 descriptors each way, rx thresholds
8/8/4, tx thresholds 36/0/0, and the flags `NOMULTSEGS | NOOFFLOADS` when
`simple_tx` is true, `NOMULTSEGS` alone when it is false; a successful call did
set up the tx queue with these. In `main`, `simple_tx` is true exactly when
`getopt` reported the option `s`, every driver call of the startup carries the
values of that one mode, and when the loop is reached the tx queues of both
ports were set up with that mode's flags. -/
theorem mode_selection :
    (∀ (e : Env) (g : Global) (port : Nat) (simple_tx : Bool) (flags0 : Nat),
      g.tx_conf = { tx_conf with txq_flags := flags0 } →
      ∃ new, (config_port e g port simple_tx).2.out = g.out ++ new ∧
        (∀ c rc, Event.call c rc ∈ new → call_conforms e simple_tx c) ∧
        ((config_port e g port simple_tx).1 = true →
          ∃ rc, Event.call (.tx_queue_setup port 0 512 (mode_tx_conf e simple_tx)) rc ∈ new)) ∧
    (∀ (e : Env) (argv : List String),
      (∀ s port1 port2 g0, parse_args e argv = (some (s, port1, port2), g0) →
        (s = true ↔ (e.getopt argv).1 % 256 = 115)) ∧
      (∀ c rc, Event.call c rc ∈ (main_startup e argv).2.out →
        call_conforms e (decide ((e.getopt argv).1 % 256 = 115)) c) ∧
      (∀ port1 port2, (main_startup e argv).1 = Startup.running port1 port2 →
        ∃ rc1 rc2,
          Event.call (.tx_queue_setup port1 0 512
            (mode_tx_conf e (decide ((e.getopt argv).1 % 256 = 115)))) rc1 ∈
              (main_startup e argv).2.out ∧
          Event.call (.tx_queue_setup port2 0 512
            (mode_tx_conf e (decide ((e.getopt argv).1 % 256 = 115)))) rc2 ∈
              (main_startup e argv).2.out)) := by
  constructor
  · intro e g port simple_tx flags0 hg
    obtain ⟨new, _, h1, -, h2, h3⟩ := config_port_conf e g port simple_tx flags0 hg
    exact ⟨new, h1, h2, h3⟩
  · intro e argv
    exact ⟨fun s p1 p2 g0 hp => (parse_args_simple e argv s p1 p2 g0 hp).1,
      (main_startup_conf e argv).1, (main_startup_conf e argv).2⟩

/-- With the flag values of `rte_ethdev.h`: `-s 2 1` sets up both tx queues with
flags `0x0F01`, and `2 1` sets up both with flags `0x0001`, also when the shared
record still holds the flags of a simple-mode call. -/
theorem mode_selection_witness :
    (∃ rc1 rc2,
      Event.call (.tx_queue_setup 2 0 512
        { pthresh := 36, hthresh := 0, wthresh := 0, tx_free_thresh := 0, tx_rs_thresh := 0,
          txq_flags := 0x0F01 }) rc1 ∈ (main_startup good_env ["tx", "-s", "2", "1"]).2.out ∧
      Event.call (.tx_queue_setup 1 0 512
        { pthresh := 36, hthresh := 0, wthresh := 0, tx_free_thresh := 0, tx_rs_thresh := 0,
          txq_flags := 0x0F01 }) rc2 ∈ (main_startup good_env ["tx", "-s", "2", "1"]).2.out) ∧
    (∃ new, (config_port good_env
        { Global.init with tx_conf := { tx_conf with txq_flags := 0x0F01 } } 2 false).2.out =
        [] ++ new ∧
      (∀ c rc, Event.call c rc ∈ new → call_conforms good_env false c) ∧
      ((config_port good_env
        { Global.init with tx_conf := { tx_conf with txq_flags := 0x0F01 } } 2 false).1 = true →
        ∃ rc, Event.call (.tx_queue_setup 2 0 512
          { pthresh := 36, hthresh := 0, wthresh := 0, tx_free_thresh := 0, tx_rs_thresh := 0,
            txq_flags := 0x0001 }) rc ∈ new)) :=
  ⟨(mode_selection.2 good_env ["tx", "-s", "2", "1"]).2.2 2 1 (by decide),
   mode_selection.1 good_env
    { Global.init with tx_conf := { tx_conf with txq_flags := 0x0F01 } } 2 false 0x0F01 rfl⟩

theorem add64_sub64_cancel (t p hz : Nat) :
    add64 (sub64 t (add64 p hz)) hz = sub64 t p := by
  simp only [add64, sub64, U64]
  omega

theorem add64_sub64_self (t hz : Nat) : add64 (sub64 t hz) hz = t % U64 := by
  simp only [add64, sub64, U64]
  omega

theorem sub64_of_le (a b : Nat) (hab : a ≤ b) (hb : b < U64) : sub64 b a = b - a := by
  simp only [sub64, U64] at *
  omega

theorem add64_of_lt (a b : Nat) (h : a + b < U64) : add64 a b = a + b := by
  simp only [add64]
  exact Nat.mod_eq_of_lt h

theorem rate_monitor_inv (hz : Nat) (st : LoopState) (time : Nat)
    (q : LoopState × Option Report) (h : rate_monitor hz st time = some q) :
    (q.2 = none → q.1 = st ∧ time < st.next_print) ∧
    (∀ r, q.2 = some r → r.time = time ∧ report_from hz st.next_print st.last_sent r ∧
      r.total = st.sent ∧
      q.1 = { st with next_print := add64 time hz, last_sent := st.sent }) := by
  simp only [rate_monitor] at h
  split_ifs at h with h1 h2
  · simp only [Option.some.injEq] at h
    subst h
    refine ⟨by simp, ?_⟩
    intro r hr
    simp only [Option.some.injEq] at hr
    subst hr
    exact ⟨rfl, ⟨h1, h2, rfl, rfl, rfl⟩, rfl, rfl⟩
  · simp only [Option.some.injEq] at h
    subst h
    exact ⟨fun _ => ⟨rfl, by omega⟩, by simp⟩

theorem main_iter_report (hz port1 port2 : Nat) (st : LoopState) (it : Iter)
    (q : LoopState × IterOut) (h : main_iter hz port1 port2 st it = some q) :
    (q.2.report = none →
      q.1.next_print = st.next_print ∧ q.1.last_sent = st.last_sent) ∧
    (∀ r, q.2.report = some r → r.time = it.time ∧
      report_from hz st.next_print st.last_sent r ∧
      q.1.next_print = add64 r.time hz ∧ q.1.last_sent = r.total) := by
  obtain ⟨n1, n2, -, -, -, -, hm⟩ := main_iter_inv hz port1 port2 st it q h
  obtain ⟨h1, h2⟩ := rate_monitor_inv hz _ it.time _ hm
  constructor
  · intro hn
    obtain ⟨h3, -⟩ := h1 hn
    simp only at h3
    rw [h3]
    exact ⟨rfl, rfl⟩
  · intro r hr
    obtain ⟨h3, h4, h5, h6⟩ := h2 r hr
    simp only at h4 h5 h6
    refine ⟨h3, h4, ?_, ?_⟩
    · rw [h6, h3]
    · rw [h6, h5]

theorem reports_cons (hz port1 port2 : Nat) (st : LoopState) (it : Iter) (its : List Iter) :
    reports hz port1 port2 st (it :: its) =
      match main_iter hz port1 port2 st it with
      | none => []
      | some q =>
        match q.2.report with
        | none => reports hz port1 port2 q.1 its
        | some r => r :: reports hz port1 port2 q.1 its := by
  simp only [reports, main_loop]
  cases h : main_iter hz port1 port2 st it with
  | none => simp
  | some q =>
    simp only [List.filterMap_cons]
    cases h2 : q.2.report <;> simp

theorem reports_chain (hz port1 port2 : Nat) (its : List Iter) (st : LoopState) :
    (∀ r, (reports hz port1 port2 st its).head? = some r →
      report_from hz st.next_print st.last_sent r) ∧
    List.Chain' (fun a b => report_from hz (add64 a.time hz) a.total b)
      (reports hz port1 port2 st its) := by
  induction its generalizing st with
  | nil => simp [reports, main_loop]
  | cons it its ih =>
    rw [reports_cons]
    cases h : main_iter hz port1 port2 st it with
    | none => simp
    | some q =>
      obtain ⟨h1, h2⟩ := main_iter_report hz port1 port2 st it q h
      obtain ⟨ih1, ih2⟩ := ih q.1
      cases hr : q.2.report with
      | none =>
        obtain ⟨e1, e2⟩ := h1 hr
        simp only [hr]
        rw [e1, e2] at ih1
        exact ⟨ih1, ih2⟩
      | some r =>
        obtain ⟨-, h3, e1, e2⟩ := h2 r hr
        simp only [hr]
        refine ⟨?_, ?_⟩
        · intro r1 hr1
          simp only [List.head?_cons, Option.some.injEq] at hr1
          subst hr1
          exact h3
        · rw [List.chain'_cons']
          refine ⟨?_, ih2⟩
          intro y hy
          have := ih1 y hy
          rw [e1, e2] at this
          exact this

theorem chain_get {α : Type} (R : α → α → Prop) (l : List α) (h : List.Chain' R l)
    (i : Nat) (a b : α) (ha : l[i]? = some a) (hb : l[i + 1]? = some b) : R a b := by
  induction l generalizing i with
  | nil => simp at ha
  | cons x l ih =>
    rw [List.chain'_cons'] at h
    cases i with
    | zero =>
      simp only [List.getElem?_cons_zero, Option.some.injEq] at ha
      simp only [Nat.zero_add, List.getElem?_cons_succ] at hb
      subst ha
      apply h.1
      rw [List.head?_eq_getElem?]
      simpa using hb
    | succ i =>
      simp only [List.getElem?_cons_succ] at ha hb
      exact ih h.2 i ha hb

theorem reports_pairs (hz port1 port2 : Nat) (its : List Iter) (st : LoopState) :
    (∀ r, (reports hz port1 port2 st its)[0]? = some r →
      report_from hz st.next_print st.last_sent r) ∧
    (∀ i a b, (reports hz port1 port2 st its)[i]? = some a →
      (reports hz port1 port2 st its)[i + 1]? = some b →
      report_from hz (add64 a.time hz) a.total b) := by
  obtain ⟨h1, h2⟩ := reports_chain hz port1 port2 its st
  refine ⟨fun r hr => h1 r ?_, fun i a b ha hb => chain_get _ _ h2 i a b ha hb⟩
  rw [List.head?_eq_getElem?]
  exact hr

/-- Claim C7 (rate monitor step). For a positive counter frequency and a
reading that has reached the threshold, the rate monitor emits a report whose
packet delta is `sent - last_sent` in `uint64_t` arithmetic (the plain
difference whenever `last_sent ≤ sent`), sets the threshold to `time + hz` in
`uint64_t` arithmetic (exactly `time + hz` whenever that fits 64 bits) and the
baseline to the running total, and leaves the total alone; for a reading below
the threshold it reports nothing and changes nothing. Hence in every run of the
loop the delta of the first report is its total minus 0 and the delta of each
later report is its total minus the total of the report before. -/
theorem rate_monitor_step :
    (∀ (hz : Nat) (st : LoopState) (time : Nat), 0 < hz → st.next_print ≤ time →
      ∃ st1 r, rate_monitor hz st time = some (st1, some r) ∧
        r.time = time ∧ r.total = st.sent ∧
        r.pkts = (st.sent % 2 ^ 64 + 2 ^ 64 - st.last_sent % 2 ^ 64) % 2 ^ 64 ∧
        (st.last_sent ≤ st.sent → st.sent < 2 ^ 64 → r.pkts = st.sent - st.last_sent) ∧
        st1.next_print = (time + hz) % 2 ^ 64 ∧
        (time + hz < 2 ^ 64 → st1.next_print = time + hz) ∧
        st1.last_sent = st.sent ∧ st1.sent = st.sent ∧ st1.seq = st.seq) ∧
    (∀ (hz : Nat) (st : LoopState) (time : Nat), time < st.next_print →
      rate_monitor hz st time = some (st, none)) ∧
    (∀ (hz port1 port2 : Nat) (its : List Iter),
      (∀ r, (reports hz port1 port2 (loop_init hz) its)[0]? = some r →
        r.pkts = sub64 r.total 0) ∧
      (∀ i a b, (reports hz port1 port2 (loop_init hz) its)[i]? = some a →
        (reports hz port1 port2 (loop_init hz) its)[i + 1]? = some b →
        b.pkts = sub64 b.total a.total ∧
        (a.total ≤ b.total → b.total < 2 ^ 64 → b.pkts = b.total - a.total))) := by
  refine ⟨?_, ?_, ?_⟩
  · intro hz st time hhz ht
    have hne : hz ≠ 0 := by omega
    refine ⟨{ st with next_print := add64 time hz, last_sent := st.sent },
      { time := time, cycles := add64 (sub64 time st.next_print) hz,
        elapsed := add64 (sub64 time st.next_print) hz / hz,
        pkts := sub64 st.sent st.last_sent, total := st.sent },
      by simp only [rate_monitor, ge_iff_le, ht, if_true, hne, if_false],
      rfl, rfl, rfl, ?_, rfl, ?_, rfl, rfl, rfl⟩
    · intro h1 h2
      exact sub64_of_le _ _ h1 h2
    · intro h
      exact add64_of_lt _ _ h
  · intro hz st time ht
    have : ¬ (time ≥ st.next_print) := by omega
    simp [rate_monitor, this]
  · intro hz port1 port2 its
    obtain ⟨h1, h2⟩ := reports_pairs hz port1 port2 its (loop_init hz)
    refine ⟨fun r hr => (h1 r hr).2.2.2.2, fun i a b ha hb => ?_⟩
    have h := (h2 i a b ha hb).2.2.2.2
    exact ⟨h, fun h3 h4 => by rw [h]; exact sub64_of_le _ _ h3 h4⟩

/-- At frequency 10 with threshold 10, the reading 15 after 128 packets gives a
report of 128 packets and moves the threshold to 25. -/
theorem rate_monitor_step_witness :
    ∃ st1 r, rate_monitor 10 { seq := 128, sent := 128, next_print := 10, last_sent := 0 } 15 =
        some (st1, some r) ∧
      r.time = 15 ∧ r.total = 128 ∧
      r.pkts = (128 % 2 ^ 64 + 2 ^ 64 - 0 % 2 ^ 64) % 2 ^ 64 ∧
      (0 ≤ 128 → 128 < 2 ^ 64 → r.pkts = 128 - 0) ∧
      st1.next_print = (15 + 10) % 2 ^ 64 ∧
      (15 + 10 < 2 ^ 64 → st1.next_print = 15 + 10) ∧
      st1.last_sent = 128 ∧ st1.sent = 128 ∧ st1.seq = 128 :=
  rate_monitor_step.1 10 { seq := 128, sent := 128, next_print := 10, last_sent := 0 } 15
    (by decide) (by decide)

/-- Claim C8, as amended (report spacing is at least one frequency). In every
run of the loop the first report is made at a reading of at least `hz`, and for
every two successive reports the later reading is at least the earlier reading
plus `hz`, the sum taken in `uint64_t` arithmetic as the code computes the
threshold; so the two readings are at least `hz` cycles apart whenever that sum
fits 64 bits. -/
theorem report_spacing_at_least (hz port1 port2 : Nat) (its : List Iter) :
    (∀ r, (reports hz port1 port2 (loop_init hz) its)[0]? = some r → hz ≤ r.time) ∧
    (∀ i a b, (reports hz port1 port2 (loop_init hz) its)[i]? = some a →
      (reports hz port1 port2 (loop_init hz) its)[i + 1]? = some b →
      (a.time + hz) % 2 ^ 64 ≤ b.time ∧
      (a.time + hz < 2 ^ 64 → a.time + hz ≤ b.time)) := by
  obtain ⟨h1, h2⟩ := reports_pairs hz port1 port2 its (loop_init hz)
  refine ⟨fun r hr => (h1 r hr).1, fun i a b ha hb => ?_⟩
  have h := (h2 i a b ha hb).1
  refine ⟨h, fun hlt => ?_⟩
  rw [add64_of_lt _ _ hlt] at h
  exact h

/-- With readings 10, 12, 25 at frequency 10, the two reports are made at 10
and 25, and 20 ≤ 25. -/
theorem report_spacing_at_least_witness :
    (reports 10 0 1 (loop_init 10) three_iters)[0]? =
      some { time := 10, cycles := 10, elapsed := 1, pkts := 128, total := 128 } ∧
    (reports 10 0 1 (loop_init 10) three_iters)[0 + 1]? =
      some { time := 25, cycles := 15, elapsed := 1, pkts := 256, total := 384 } ∧
    10 + 10 ≤ 25 :=
  ⟨by decide, by decide,
   ((report_spacing_at_least 10 0 1 three_iters).2 0
    { time := 10, cycles := 10, elapsed := 1, pkts := 128, total := 128 }
    { time := 25, cycles := 15, elapsed := 1, pkts := 256, total := 384 }
    (by decide) (by decide)).2 (by decide)⟩

/-- Claim C8 fails as stated: at frequency 10, with the non-decreasing readings
10, 12, 25, the loop reports at the readings 10 and 25, which are 15 cycles
apart, not 10. -/
theorem report_spacing_counterexample :
    three_iters.map (fun it => it.time) = [10, 12, 25] ∧
    (reports 10 0 1 (loop_init 10) three_iters).map (fun r => r.time) = [10, 25] ∧
    ¬ (∀ i a b, (reports 10 0 1 (loop_init 10) three_iters)[i]? = some a →
        (reports 10 0 1 (loop_init 10) three_iters)[i + 1]? = some b →
        b.time = a.time + 10) := by
  refine ⟨by decide, by decide, ?_⟩
  intro h
  have := h 0 { time := 10, cycles := 10, elapsed := 1, pkts := 128, total := 128 }
    { time := 25, cycles := 15, elapsed := 1, pkts := 256, total := 384 }
    (by decide) (by decide)
  simp at this

/-- Claim C9 fails on the code: the value converted to `elapsed` is the
`uint64_t` quotient of the cycle count by `hz`, not the fraction. At 2 GHz with
the threshold at 2000000000, the reading 3000000000 after 128 packets has
3000000000 elapsed cycles, the fraction is 3/2, the code divides by 1 and
reports 128 packets per second where the claim says 128 * hz / 3000000000. -/
theorem elapsed_is_truncated :
    (∀ (hz : Nat) (st st1 : LoopState) (time : Nat) (r : Report),
      rate_monitor hz st time = some (st1, some r) →
        r.cycles = add64 (sub64 time st.next_print) hz ∧ r.elapsed = r.cycles / hz) ∧
    (∃ st1 r,
      rate_monitor 2000000000
        { seq := 128, sent := 128, next_print := 2000000000, last_sent := 0 } 3000000000 =
        some (st1, some r) ∧
      r.cycles = 3000000000 ∧ r.elapsed = 1 ∧ r.pkts = 128 ∧
      (r.elapsed : ℚ) ≠ ((3000000000 : ℚ) - 2000000000 + 2000000000) / 2000000000 ∧
      r.mpps * 1000000 = 128 ∧
      r.mpps * 1000000 ≠
        (128 : ℚ) * 2000000000 / ((3000000000 : ℚ) - 2000000000 + 2000000000)) := by
  constructor
  · intro hz st st1 time r h
    obtain ⟨-, h2⟩ := rate_monitor_inv hz st time _ h
    obtain ⟨h3, h4, -, -⟩ := h2 r rfl
    rw [← h3]
    exact ⟨h4.2.2.1, h4.2.2.2.1⟩
  · refine ⟨_, _, rfl, by decide, by decide, by decide, ?_, ?_, ?_⟩
    · norm_num [add64, sub64, U64]
    · norm_num [Report.mpps, add64, sub64, U64]
    · norm_num [Report.mpps, add64, sub64, U64]

theorem send_pkts_returns (tx : SendEnv) (h : tx.completes) (port seq : Nat) :
    (send_pkts port tx.pool tx.resp tx.fuel seq).ret = some BATCH_SIZE := by
  classical
  obtain ⟨hle, n, hn, hc⟩ := h
  have hev : ∃ n, BATCH_SIZE ≤ cum tx.resp n := ⟨n, hc⟩
  have hn0 : BATCH_SIZE ≤ cum tx.resp (Nat.find hev) := Nat.find_spec hev
  have hmin : ∀ m, m < Nat.find hev → cum tx.resp m < BATCH_SIZE := fun m hm =>
    Nat.lt_of_not_le (Nat.find_min hev hm)
  have hpos : 0 < Nat.find hev := by
    rcases Nat.eq_zero_or_pos (Nat.find hev) with h0 | h0
    · rw [h0, cum_zero] at hn0
      simp [BATCH_SIZE] at hn0
    · exact h0
  have hfuel : Nat.find hev ≤ tx.fuel := le_trans (Nat.find_min' hev hc) hn
  have := (tx_loop_complete port tx.resp (alloc_loop tx.pool BATCH_SIZE 0 seq).1
    (Nat.find hev) hle hn0 hmin (Nat.find hev - 1) 0 (by omega) tx.fuel (by omega)).1
  rw [cum_zero] at this
  exact this

theorem rate_monitor_total (hz : Nat) (hz0 : 0 < hz) (st : LoopState) (time : Nat) :
    ∃ q, rate_monitor hz st time = some q := by
  have hne : hz ≠ 0 := by omega
  by_cases h : time ≥ st.next_print
  · simp only [rate_monitor, h, if_true, hne, if_false]
    exact ⟨_, rfl⟩
  · simp only [rate_monitor, h, if_false]
    exact ⟨_, rfl⟩

theorem main_iter_total (hz port1 port2 : Nat) (hz0 : 0 < hz) (st : LoopState) (it : Iter)
    (h1 : it.tx1.completes) (h2 : it.tx2.completes) :
    ∃ q, main_iter hz port1 port2 st it = some q := by
  obtain ⟨q, hq⟩ := rate_monitor_total hz hz0
    { seq := (send_pkts port2 it.tx2.pool it.tx2.resp it.tx2.fuel
          (send_pkts port1 it.tx1.pool it.tx1.resp it.tx1.fuel st.seq).seq).seq,
      sent := add64 (add64 st.sent BATCH_SIZE) BATCH_SIZE,
      next_print := st.next_print, last_sent := st.last_sent } it.time
  simp only [main_iter, send_pkts_returns it.tx1 h1, send_pkts_returns it.tx2 h2, hq]
  exact ⟨_, rfl⟩

theorem main_iter_due (hz port1 port2 : Nat) (st : LoopState) (it : Iter)
    (q : LoopState × IterOut) (h : main_iter hz port1 port2 st it = some q) :
    (q.2.report = none → it.time < st.next_print ∧ q.1.next_print = st.next_print) ∧
    (∀ r, q.2.report = some r →
      r.time = it.time ∧ st.next_print ≤ it.time ∧ q.1.next_print = add64 it.time hz) := by
  obtain ⟨n1, n2, -, -, -, -, hm⟩ := main_iter_inv hz port1 port2 st it q h
  obtain ⟨h1, h2⟩ := rate_monitor_inv hz _ it.time _ hm
  constructor
  · intro hn
    obtain ⟨h3, h4⟩ := h1 hn
    simp only at h3 h4
    rw [h3]
    exact ⟨h4, rfl⟩
  · intro r hr
    obtain ⟨h3, h4, -, h6⟩ := h2 r hr
    simp only at h4 h6
    refine ⟨h3, ?_, ?_⟩
    · have := h4.1
      rw [h3] at this
      exact this
    · rw [h6]

theorem main_loop_report_times (hz port1 port2 : Nat) (hz0 : 0 < hz) (its : List Iter)
    (st : LoopState) (hits : ∀ it ∈ its, it.tx1.completes ∧ it.tx2.completes) :
    (main_loop hz port1 port2 st its).length = its.length ∧
    (reports hz port1 port2 st its).map (fun r => r.time) =
      report_times hz st.next_print (its.map fun it => it.time) := by
  induction its generalizing st with
  | nil => simp [main_loop, reports, report_times]
  | cons it its ih =>
    obtain ⟨h1, h2⟩ := hits it (List.mem_cons_self _ _)
    obtain ⟨q, hq⟩ := main_iter_total hz port1 port2 hz0 st it h1 h2
    obtain ⟨ihl, iht⟩ := ih q.1 (fun x hx => hits x (List.mem_cons_of_mem _ hx))
    obtain ⟨d1, d2⟩ := main_iter_due hz port1 port2 st it q hq
    constructor
    · simp only [main_loop, hq, List.length_cons, ihl]
    · rw [reports_cons, hq]
      simp only [List.map_cons, report_times]
      cases hr : q.2.report with
      | none =>
        obtain ⟨e1, e2⟩ := d1 hr
        have : ¬ (st.next_print ≤ it.time) := by omega
        simp only [this, if_false]
        rw [iht, e2]
      | some r =>
        obtain ⟨e1, e2, e3⟩ := d2 r hr
        simp only [e2, if_true, List.map_cons, e1]
        rw [iht, e3]

theorem cycles_of_chain (hz : Nat) (l : List Report) (prev : Nat)
    (hhead : ∀ r, l.head? = some r → r.cycles = sub64 r.time prev)
    (hchain : List.Chain' (fun a b => report_from hz (add64 a.time hz) a.total b) l) :
    l.map (fun r => r.cycles) = elapsed_cycles prev (l.map fun r => r.time) := by
  induction l generalizing prev with
  | nil => simp [elapsed_cycles]
  | cons r l ih =>
    rw [List.chain'_cons'] at hchain
    simp only [List.map_cons, elapsed_cycles]
    rw [hhead r rfl, ih r.time ?_ hchain.2]
    intro r1 hr1
    have := (hchain.1 r1 hr1).2.2.1
    rw [add64_sub64_cancel] at this
    exact this

theorem sub64_zero (t : Nat) : sub64 t 0 = t % U64 := by
  simp only [sub64, U64]
  omega

theorem reports_cycles (hz port1 port2 : Nat) (its : List Iter) :
    (reports hz port1 port2 (loop_init hz) its).map (fun r => r.cycles) =
      elapsed_cycles 0 ((reports hz port1 port2 (loop_init hz) its).map fun r => r.time) := by
  obtain ⟨h1, h2⟩ := reports_chain hz port1 port2 its (loop_init hz)
  apply cycles_of_chain hz _ 0 _ h2
  intro r hr
  have := (h1 r hr).2.2.1
  simp only [loop_init] at this
  rw [add64_sub64_self] at this
  rw [this, sub64_zero]

theorem good_tx_completes : good_tx.completes := by
  refine ⟨fun k hk => ?_, 1, by decide, by decide⟩
  have hc : cum good_tx.resp k = 64 * k := cum_const 64 k
  rw [hc] at hk ⊢
  simp only [BATCH_SIZE, good_tx] at hk ⊢
  omega

/-- Claim C10 (self-correcting elapsed interval). For a positive frequency and
a reading that has reached the threshold, the rate monitor makes a report whose
cycle count `time - next_print + hz` is the reading minus the previous report's
reading when the threshold is that reading plus `hz` (the exact difference when
the counter did not go backwards), and is the reading itself when the threshold
is the initial `hz`. In a run of the loop in which every `send_pkts` call
finishes, every iteration runs, the reports are made exactly at the readings
that have reached the threshold, and their cycle counts are the first of these
readings followed by the differences of successive ones. In every run the
first report counts its own reading and each later report counts its reading
minus the reading of the report before, in `uint64_t` arithmetic. -/
theorem elapsed_self_correcting :
    (∀ (hz : Nat) (st : LoopState) (time : Nat), 0 < hz → st.next_print ≤ time →
      ∃ st1 r, rate_monitor hz st time = some (st1, some r) ∧ r.time = time ∧
        r.cycles = ((time % 2 ^ 64 + 2 ^ 64 - st.next_print % 2 ^ 64) % 2 ^ 64 + hz) % 2 ^ 64 ∧
        st1.next_print = (time + hz) % 2 ^ 64 ∧
        (∀ prev, st.next_print = (prev + hz) % 2 ^ 64 →
          r.cycles = sub64 time prev ∧
          (prev ≤ time → time < 2 ^ 64 → r.cycles = time - prev)) ∧
        (st.next_print = hz →
          r.cycles = time % 2 ^ 64 ∧ (time < 2 ^ 64 → r.cycles = time))) ∧
    (∀ (hz port1 port2 : Nat) (its : List Iter), 0 < hz →
      (∀ it ∈ its, it.tx1.completes ∧ it.tx2.completes) →
      (main_loop hz port1 port2 (loop_init hz) its).length = its.length ∧
      (reports hz port1 port2 (loop_init hz) its).map (fun r => r.time) =
        report_times hz hz (its.map fun it => it.time) ∧
      (reports hz port1 port2 (loop_init hz) its).map (fun r => r.cycles) =
        elapsed_cycles 0 (report_times hz hz (its.map fun it => it.time))) ∧
    (∀ (hz port1 port2 : Nat) (its : List Iter),
      (∀ r, (reports hz port1 port2 (loop_init hz) its)[0]? = some r →
        r.cycles = r.time % 2 ^ 64 ∧ (r.time < 2 ^ 64 → r.cycles = r.time)) ∧
      (∀ i a b, (reports hz port1 port2 (loop_init hz) its)[i]? = some a →
        (reports hz port1 port2 (loop_init hz) its)[i + 1]? = some b →
        b.cycles = sub64 b.time a.time ∧
        (a.time ≤ b.time → b.time < 2 ^ 64 → b.cycles = b.time - a.time))) := by
  refine ⟨?_, ?_, ?_⟩
  · intro hz st time hhz ht
    have hne : hz ≠ 0 := by omega
    refine ⟨{ st with next_print := add64 time hz, last_sent := st.sent },
      { time := time, cycles := add64 (sub64 time st.next_print) hz,
        elapsed := add64 (sub64 time st.next_print) hz / hz,
        pkts := sub64 st.sent st.last_sent, total := st.sent },
      by simp only [rate_monitor, ge_iff_le, ht, if_true, hne, if_false],
      rfl, rfl, rfl, ?_, ?_⟩
    · intro prev hp
      have h : add64 (sub64 time st.next_print) hz = sub64 time prev := by
        have : st.next_print = add64 prev hz := hp
        rw [this, add64_sub64_cancel]
      exact ⟨h, fun h1 h2 => by simp only [h]; exact sub64_of_le _ _ h1 h2⟩
    · intro hp
      have h : add64 (sub64 time st.next_print) hz = time % 2 ^ 64 := by
        rw [hp, add64_sub64_self]
        rfl
      exact ⟨h, fun h1 => by simp only [h]; exact Nat.mod_eq_of_lt h1⟩
  · intro hz port1 port2 its hhz hits
    obtain ⟨h1, h2⟩ := main_loop_report_times hz port1 port2 hhz its (loop_init hz) hits
    have h3 : (loop_init hz).next_print = hz := rfl
    rw [h3] at h2
    refine ⟨h1, h2, ?_⟩
    rw [← h2]
    exact reports_cycles hz port1 port2 its
  · intro hz port1 port2 its
    obtain ⟨h1, h2⟩ := reports_pairs hz port1 port2 its (loop_init hz)
    constructor
    · intro r hr
      have h := (h1 r hr).2.2.1
      simp only [loop_init] at h
      rw [add64_sub64_self] at h
      exact ⟨h, fun hlt => by rw [h]; exact Nat.mod_eq_of_lt hlt⟩
    · intro i a b ha hb
      have h := (h2 i a b ha hb).2.2.1
      rw [add64_sub64_cancel] at h
      exact ⟨h, fun h3 h4 => by rw [h]; exact sub64_of_le _ _ h3 h4⟩

/-- With readings 10, 12, 25 at frequency 10 and a queue that takes every batch
at once: the three iterations run, reports are made at the readings 10 and 25,
the first counts 10 cycles and the second 25 - 10 = 15. -/
theorem elapsed_self_correcting_witness :
    (main_loop 10 0 1 (loop_init 10) three_iters).length = 3 ∧
    (reports 10 0 1 (loop_init 10) three_iters).map (fun r => r.time) = [10, 25] ∧
    (reports 10 0 1 (loop_init 10) three_iters).map (fun r => r.cycles) = [10, 25 - 10] :=
  elapsed_self_correcting.2.1 10 0 1 three_iters (by decide)
    (by
      intro it hit
      simp only [three_iters, List.mem_cons, List.mem_singleton, List.not_mem_nil,
        or_false] at hit
      rcases hit with rfl | rfl | rfl <;> exact ⟨good_tx_completes, good_tx_completes⟩)

end TxPerf
